import Mathlib

/-!
Shallow embedding of the UXCam MCP server script (src/uxcam_server.py).

File contents are modelled as lists of characters (`Str`).  The project tree
is a record of the well-known candidate files the script touches.  Python
string primitives (strip, split, startswith, substring containment,
str.replace) are modelled by executable functions below, and each regular
expression the script uses is either realised by a direct scanner (for the
anchor patterns of shape `LIT\s*{`) or by a small backtracking regex engine
(`RE` / `mAll`) that mirrors the leftmost, greedy/lazy preference of
Python's `re.search`.
-/

set_option maxRecDepth 100000

namespace UX

/-- File contents, keys and messages are plain lists of characters. -/
abbrev Str := List Char

/-- Shorthand turning a string literal into its character list. -/
def S (s : String) : Str := s.data

/-- Python whitespace (`str.strip()` with no argument, ASCII range). -/
def pySpace (c : Char) : Bool :=
  c = ' ' || c = '\t' || c = '\n' || c = '\r' || c = '\x0b' || c = '\x0c'

/-- Python `str.lstrip` with an arbitrary character predicate. -/
def lstripP (p : Char → Bool) (l : Str) : Str := l.dropWhile p

/-- Python `str.rstrip` with an arbitrary character predicate. -/
def rstripP (p : Char → Bool) (l : Str) : Str := (l.reverse.dropWhile p).reverse

/-- Python `str.strip` with an arbitrary character predicate. -/
def stripP (p : Char → Bool) (l : Str) : Str := rstripP p (lstripP p l)

/-- Python `value.strip()` (whitespace). -/
def pyStrip (l : Str) : Str := stripP pySpace l

/-- Python `value.strip(c)` for a single strip character `c`. -/
def stripCh (c : Char) (l : Str) : Str := stripP (fun d => d = c) l

/-- Python substring containment `needle in hay`. -/
def pyIn (needle hay : Str) : Bool :=
  match hay with
  | [] => needle.isEmpty
  | _ :: t => needle.isPrefixOf hay || pyIn needle t

/-- Python `str.split(sep)` for one separator character (list of lines). -/
def splitNl : Str → List Str
  | [] => [[]]
  | c :: t =>
    if c = '\n' then [] :: splitNl t
    else
      match splitNl t with
      | h :: r => (c :: h) :: r
      | [] => [[c]]

/-- Python `sep.join(lines)` for the single separator `\n`. -/
def joinNl : List Str → Str
  | [] => []
  | [l] => l
  | l :: r => l ++ '\n' :: joinNl r

/-- Python `content.replace(old, new)` (all occurrences, left to right),
with explicit structural fuel. -/
def replaceAllF (fuel : Nat) (old new : Str) (s : Str) : Str :=
  match fuel with
  | 0 => s
  | fuel + 1 =>
    if old.isEmpty then s
    else if old.isPrefixOf s then new ++ replaceAllF fuel old new (s.drop old.length)
    else
      match s with
      | [] => []
      | c :: t => c :: replaceAllF fuel old new t

/-- Python `s.replace(old, new)`. -/
def pyReplace (s old new : Str) : Str := replaceAllF (s.length + 1) old new s

/-! ### Anchor scanner for the `LIT\s*{` regular expressions

`re.search(r"LIT\s*{", txt)` (used for `repositories\s*{`, `dependencies\s*{`
and `android\s*{`) is deterministic: the literal, then the maximal whitespace
run, then an opening brace.  `matchAtLitWsBrace` decides a match at the head
of the input (returning its length), `scanFind` returns the leftmost match. -/

def matchAtLitWsBrace (lit : Str) (s : Str) : Option Nat :=
  if lit.isPrefixOf s then
    let rest := s.drop lit.length
    let ws := rest.takeWhile pySpace
    match rest.drop ws.length with
    | '\x7b' :: _ => some (lit.length + ws.length + 1)
    | _ => none
  else none

/-- Leftmost match of a head matcher: returns (start index, match length). -/
def scanFind (m : Str → Option Nat) : Str → Option (Nat × Nat)
  | [] =>
    match m [] with
    | some n => some (0, n)
    | none => none
  | c :: t =>
    match m (c :: t) with
    | some n => some (0, n)
    | none => (scanFind m t).map (fun p => (p.1 + 1, p.2))

/-- `re.sub(pat, lambda m: m.group(0) + ins, txt, count=1)`: given the span of
the first match, splice `ins` right after it; identity when there is no
match. -/
def reSubOnce (found : Option (Nat × Nat)) (ins : Str) (txt : Str) : Str :=
  match found with
  | none => txt
  | some (i, n) => txt.take (i + n) ++ ins ++ txt.drop (i + n)

/-! ### The backtracking regex engine

Just the constructs appearing in the script's patterns: literals (optionally
case-insensitive, for `re.IGNORECASE`), single-character classes, greedy and
lazy repetition, optional pieces, sequencing and one capture group.  Result
lists are in Python's backtracking preference order; the head of the result
list at the leftmost matching position is the match `re.search` returns. -/

inductive RE where
  | lit : Str → RE
  | litCI : Str → RE
  | cls : (Char → Bool) → RE
  | seq : RE → RE → RE
  | star : Bool → RE → RE
  | opt : Bool → RE → RE
  | grp : RE → RE
  | eps : RE

/-- Case-insensitive prefix test (ASCII folding, as in `re.IGNORECASE`). -/
def ciPrefix : Str → Str → Bool
  | [], _ => true
  | _ :: _, [] => false
  | a :: x, b :: y => (a.toLower = b.toLower) && ciPrefix x y

/-- Structural size, used only to pick a sufficient fuel. -/
def sizeRE : RE → Nat
  | .lit w => w.length + 1
  | .litCI w => w.length + 1
  | .cls _ => 1
  | .seq a b => sizeRE a + sizeRE b + 1
  | .star _ a => sizeRE a + 1
  | .opt _ a => sizeRE a + 1
  | .grp a => sizeRE a + 1
  | .eps => 1

/-- All ways `r` can match a prefix of `s`, as (remaining suffix, group
capture) pairs, in backtracking preference order. -/
def mAll (fuel : Nat) (r : RE) (s : Str) : List (Str × Option Str) :=
  match fuel with
  | 0 => []
  | fuel + 1 =>
    match r with
    | .eps => [(s, none)]
    | .lit w => if w.isPrefixOf s then [(s.drop w.length, none)] else []
    | .litCI w => if ciPrefix w s then [(s.drop w.length, none)] else []
    | .cls p =>
      match s with
      | c :: t => if p c then [(t, none)] else []
      | [] => []
    | .seq a b =>
      (mAll fuel a s).flatMap (fun x =>
        (mAll fuel b x.1).map (fun y => (y.1, x.2 <|> y.2)))
    | .opt true a => mAll fuel a s ++ [(s, none)]
    | .opt false a => (s, none) :: mAll fuel a s
    | .star true a =>
      ((mAll fuel a s).flatMap (fun x =>
        if x.1.length < s.length then
          (mAll fuel (.star true a) x.1).map (fun y => (y.1, x.2 <|> y.2))
        else []))
      ++ [(s, none)]
    | .star false a =>
      (s, none) ::
      (mAll fuel a s).flatMap (fun x =>
        if x.1.length < s.length then
          (mAll fuel (.star false a) x.1).map (fun y => (y.1, x.2 <|> y.2))
        else [])
    | .grp a =>
      (mAll fuel a s).map (fun x => (x.1, some (s.take (s.length - x.1.length))))

/-- A fuel amount sufficient for the patterns in this file. -/
def sFuel (r : RE) (s : Str) : Nat := (sizeRE r + 2) * (s.length + 2)

/-- Try to match `r` at the head of `s`: (match length, capture). -/
def reTryAt (r : RE) (s : Str) : Option (Nat × Option Str) :=
  match mAll (sFuel r s) r s with
  | [] => none
  | x :: _ => some (s.length - x.1.length, x.2)

/-- `re.search`: leftmost match as (start, length, capture of group 1). -/
def reSearch (r : RE) : Str → Option (Nat × Nat × Option Str)
  | [] =>
    match reTryAt r [] with
    | some (n, g) => some (0, n, g)
    | none => none
  | c :: t =>
    match reTryAt r (c :: t) with
    | some (n, g) => some (0, n, g)
    | none => (reSearch r t).map (fun x => (x.1 + 1, x.2.1, x.2.2))

/-- The span of the leftmost match. -/
def reFind (r : RE) (s : Str) : Option (Nat × Nat) :=
  (reSearch r s).map (fun x => (x.1, x.2.1))

/-- `\s*` -/
def wsP : RE := .star true (.cls pySpace)

/-- `\s+` -/
def ws1P : RE := .seq (.cls pySpace) wsP

/-- `.` without DOTALL (any character but a newline). -/
def dotNN : RE := .cls (fun c => c ≠ '\n')

/-- `.` with DOTALL. -/
def dotAll : RE := .cls (fun _ => true)

/-- Right-nested sequence of a list of pieces. -/
def seqL : List RE → RE
  | [] => .eps
  | [r] => r
  | r :: t => .seq r (seqL t)

/-- Python `str.split(sep)` for one separator character. -/
def splitOnCh (sep : Char) : Str → List Str
  | [] => [[]]
  | c :: t =>
    if c = sep then [] :: splitOnCh sep t
    else
      match splitOnCh sep t with
      | h :: r => (c :: h) :: r
      | [] => [[c]]

/-! ### The project tree

One field per well-known path the script touches; `none` means the file does
not exist.  `srcFiles` models the tree below `app/src`, in the order
`Path.rglob` enumerates it; each entry carries the file name (last path
component), its dialect (from the extension) and its content. -/

structure SrcFile where
  name : Str
  isKt : Bool
  content : Str
deriving DecidableEq

structure FS where
  settingsKts : Option Str
  settingsGroovy : Option Str
  gradleKts : Option Str
  gradleGroovy : Option Str
  manifest : Option Str
  localProps : Option Str
  gitignore : Option Str
  srcFiles : List SrcFile
deriving DecidableEq

/-- `SETTINGS_KTS if SETTINGS_KTS.exists() else SETTINGS_GROOVY`, then the
existence test: `some true` means the Kotlin-DSL settings file is selected. -/
def settingsTarget (fs : FS) : Option Bool :=
  if fs.settingsKts.isSome then some true
  else if fs.settingsGroovy.isSome then some false
  else none

/-- `GRADLE_KTS if GRADLE_KTS.exists() else GRADLE_GROOVY`, then the
existence test. -/
def gradleTarget (fs : FS) : Option Bool :=
  if fs.gradleKts.isSome then some true
  else if fs.gradleGroovy.isSome then some false
  else none

def readSettings (fs : FS) (kts : Bool) : Str :=
  (if kts then fs.settingsKts else fs.settingsGroovy).getD []

def writeSettings (fs : FS) (kts : Bool) (c : Str) : FS :=
  if kts then { fs with settingsKts := some c }
  else { fs with settingsGroovy := some c }

def readGradle (fs : FS) (kts : Bool) : Str :=
  (if kts then fs.gradleKts else fs.gradleGroovy).getD []

def writeGradle (fs : FS) (kts : Bool) (c : Str) : FS :=
  if kts then { fs with gradleKts := some c }
  else { fs with gradleGroovy := some c }

def settingsPathStr (kts : Bool) : Str :=
  if kts then S "settings.gradle.kts" else S "settings.gradle"

def gradlePathStr (kts : Bool) : Str :=
  if kts then S "app/build.gradle.kts" else S "app/build.gradle"

/-! ### Constants from the script header -/

def MAVEN_REPO_SNIPPET : Str := S "maven \x7b url \x22https://sdk.uxcam.com/android/\x22 \x7d"

def MAVEN_REPO_SNIPPET_KTS : Str := S "maven(\x22https://sdk.uxcam.com/android/\x22)"

def DEP_LINE_GROOVY : Str := S "implementation \x27com.uxcam:uxcam:3.+\x27"

def DEP_LINE_KTS : Str := S "implementation(\x22com.uxcam:uxcam:3.+\x22)"

def JAVA_IMPORTS : Str := S "import com.uxcam.UXCam;\nimport com.uxcam.datamodel.UXConfig;"

def KOTLIN_IMPORTS : Str := S "import com.uxcam.UXCam\nimport com.uxcam.datamodel.UXConfig"

/-- `JAVA_SNIPPET % app_key_expr` -/
def java_snippet (key : Str) : Str :=
  S "\n        // UXCam initialization\n        String uxcamKey = " ++ key ++
  S ";\n        UXConfig config = new UXConfig.Builder(uxcamKey)\n                .enableIntegrationLogging(BuildConfig.DEBUG)\n                .build();\n        UXCam.startWithConfiguration(config);"

/-- `KOTLIN_SNIPPET % app_key_expr` -/
def kotlin_snippet (key : Str) : Str :=
  S "\n        // UXCam initialization\n        val uxcamKey = " ++ key ++
  S "\n        val config = UXConfig.Builder(uxcamKey)\n            .enableIntegrationLogging(BuildConfig.DEBUG)\n            .build()\n        UXCam.startWithConfiguration(config)"

/-! ### Repository and dependency steps -/

/-- `dependencyResolutionManagement\s*{[^}]*repositories\s*{` -/
def drmRE : RE := seqL [.lit (S "dependencyResolutionManagement"), wsP, .lit [ '\x7b' ],
  .star true (.cls (fun c => c ≠ '\x7d')), .lit (S "repositories"), wsP, .lit [ '\x7b' ]]

def add_repo_fallback (fs : FS) : FS × Str :=
  match gradleTarget fs with
  | none => (fs, S "⚠️ Neither settings.gradle nor app/build.gradle found")
  | some kts =>
    let txt := readGradle fs kts
    let snippet := if kts then MAVEN_REPO_SNIPPET_KTS else MAVEN_REPO_SNIPPET
    if pyIn snippet txt then (fs, S "ℹ️ Maven repo already present in app/build.gradle")
    else
      let newTxt := reSubOnce (scanFind (matchAtLitWsBrace (S "repositories")) txt)
        (S "\n        " ++ snippet) txt
      (writeGradle fs kts newTxt,
       S "✔️ Added UXCam Maven repo in " ++ gradlePathStr kts ++ S " (fallback)")

def add_repo (fs : FS) : FS × Str :=
  match settingsTarget fs with
  | none => add_repo_fallback fs
  | some kts =>
    let txt := readSettings fs kts
    let snippet := if kts then MAVEN_REPO_SNIPPET_KTS else MAVEN_REPO_SNIPPET
    if pyIn snippet txt then (fs, S "ℹ️ Maven repo already present in settings.gradle")
    else
      match reFind drmRE txt with
      | some span =>
        let newTxt := reSubOnce (some span) (S "\n        " ++ snippet) txt
        (writeSettings fs kts newTxt,
         S "✔️ Added UXCam Maven repo in " ++ settingsPathStr kts ++
           S " (dependencyResolutionManagement)")
      | none => add_repo_fallback fs

def add_dependency (fs : FS) : FS × Str :=
  match gradleTarget fs with
  | none => (fs, S "⚠️ app/build.gradle file not found")
  | some kts =>
    let txt := readGradle fs kts
    let line := if kts then DEP_LINE_KTS else DEP_LINE_GROOVY
    if pyIn line txt then (fs, S "ℹ️ Dependency already present")
    else
      let newTxt := reSubOnce (scanFind (matchAtLitWsBrace (S "dependencies")) txt)
        (S "\n    " ++ line) txt
      (writeGradle fs kts newTxt, S "✔️ Added UXCam dependency in " ++ gradlePathStr kts)

/-! ### Key handling -/

def handle_no_key_provided : Str :=
  S "⚠️ UXCam app key required. Please specify your key:\n1. Get your key from UXCam dashboard\n2. Add to local.properties: UXCAM_KEY=your-actual-key\n3. Run: \x22Add UXCam with app key UXCAM_KEY\x22 "

/-- Python `value.isalpha()`. -/
def pyIsAlpha (v : Str) : Bool := !v.isEmpty && v.all Char.isAlpha

/-- Python `value.isdigit()`. -/
def pyIsDigit (v : Str) : Bool := !v.isEmpty && v.all Char.isDigit

def is_likely_api_key (v : Str) : Bool :=
  decide (20 < v.length) && v.any Char.isAlphanum && !pyIsAlpha v && !pyIsDigit v

/-! `find_in_local_properties`: the multiline search
`re.search(rf"^{VAR}\s*=\s*(.+)$", content, re.MULTILINE)`.  A match anchors
at position 0 or right after a newline; after the variable name, a greedy
whitespace run must end at `=`; after `=`, the greedy `\s*` backtracks just
far enough for `(.+)` to start with a non-newline character, and `(.+)`
then runs greedily to the end of that line, where `$` holds. -/

/-- Backtracking for the tail `\s*(.+)$` after the `=`: `k` counts how many
characters of the leading whitespace run `\s*` still consumes. -/
def eqTailFrom (rest : Str) : Nat → Option Str
  | 0 =>
    match rest with
    | [] => none
    | c :: _ => if c ≠ '\n' then some (rest.takeWhile (fun d => d ≠ '\n')) else none
  | k + 1 =>
    let rem := rest.drop (k + 1)
    match rem with
    | c :: _ =>
      if c ≠ '\n' then some (rem.takeWhile (fun d => d ≠ '\n')) else eqTailFrom rest k
    | [] => eqTailFrom rest k

/-- One anchored attempt of `VAR\s*=\s*(.+)$`, returning group 1. -/
def matchPropsAt (var : Str) (s : Str) : Option Str :=
  if var.isPrefixOf s then
    let r1 := s.drop var.length
    let w1 := r1.takeWhile pySpace
    match r1.drop w1.length with
    | '=' :: r2 => eqTailFrom r2 (r2.takeWhile pySpace).length
    | _ => none
  else none

/-- Try anchors after each newline, left to right. -/
def scanNextLines (var : Str) : Str → Option Str
  | [] => none
  | c :: t =>
    if c = '\n' then
      match matchPropsAt var t with
      | some g => some g
      | none => scanNextLines var t
    else scanNextLines var t

def find_in_local_properties (fs : FS) (var : Str) : Option Str :=
  match fs.localProps with
  | none => none
  | some content =>
    let raw :=
      match matchPropsAt var content with
      | some g => some g
      | none => scanNextLines var content
    raw.map (fun g => stripCh '\x27' (stripCh '\x22' (pyStrip g)))

/-- `line.strip().startswith(f"{var_name}=")` -/
def lineTest (name : Str) (l : Str) : Bool := (name ++ [ '=' ]).isPrefixOf (pyStrip l)

/-- The replace-first-matching-line loop of `store_in_local_properties`. -/
def replaceFirstLine (name entry : Str) : List Str → Option (List Str)
  | [] => none
  | l :: t =>
    if lineTest name l then some (entry :: t)
    else (replaceFirstLine name entry t).map (fun r => l :: r)

def ensure_gitignore_has_local_properties (fs : FS) : FS :=
  match fs.gitignore with
  | some content =>
    if pyIn (S "local.properties") content then fs
    else { fs with gitignore := some (content ++ S "\nlocal.properties\n") }
  | none => { fs with gitignore := some (S "local.properties\n") }

/-- The line list read from `local.properties` (empty when absent). -/
def linesOfFS (fs : FS) : List Str :=
  match fs.localProps with
  | some c => splitNl c
  | none => []

/-- The line-level transform of `store_in_local_properties`: replace the
first matching line, else reuse a trailing blank line, else append. -/
def storeL (L : List Str) (name v : Str) : List Str :=
  let entry := name ++ '=' :: v
  match replaceFirstLine name entry L with
  | some r => r
  | none =>
    if !L.isEmpty && (pyStrip (L.getLastD [])).isEmpty then
      L.dropLast ++ [entry]
    else L ++ [entry]

def store_in_local_properties (fs : FS) (name v : Str) : FS :=
  ensure_gitignore_has_local_properties
    { fs with localProps := some (joinNl (storeL (linesOfFS fs) name v)) }

/-- `["\']` -/
def qCls : RE := .cls (fun c => c = '\x22' || c = '\x27')

/-- Common head of the four `buildConfigField` detection patterns:
`buildConfigField.*["\']String["\'].*["\']?VAR["\']?` (IGNORECASE, `.` does
not cross newlines). -/
def bcHead (var : Str) : List RE :=
  [.litCI (S "buildConfigField"), .star true dotNN, qCls, .litCI (S "String"), qCls,
   .star true dotNN, .opt true qCls, .litCI var, .opt true qCls]

def bcPat1 (var : Str) : RE := seqL (bcHead var)

def bcPat2 (var : Str) : RE := seqL (bcHead var ++ [.star true dotNN, .litCI (S "findProperty")])

def bcPat3 (var : Str) : RE := seqL (bcHead var ++ [.star true dotNN, .litCI (S "System.getenv")])

def bcPat4 (var : Str) : RE := seqL (bcHead var ++ [.star true dotNN, qCls, .star true dotNN, qCls])

def is_buildconfig_variable_exposed (fs : FS) (var : Str) : Bool :=
  match gradleTarget fs with
  | none => false
  | some kts =>
    let content := readGradle fs kts
    [bcPat1 var, bcPat2 var, bcPat3 var, bcPat4 var].any
      (fun p => (reSearch p content).isSome)

/-- The synthesized `buildConfigField` declaration line, by dialect. -/
def buildConfigLine (kts : Bool) (var : Str) : Str :=
  if kts then
    S "        buildConfigField(\x22String\x22, \x22" ++ var ++
    S "\x22, \x22\\\x22$\x7bproject.findProperty(\\\x22" ++ var ++
    S "\\\x22) ?: \\\x22\\\x22\x7d\\\x22)"
  else
    S "        buildConfigField \x22String\x22, \x22" ++ var ++
    S "\x22, \x22\\\x22$\x7bproject.findProperty(\\\x22" ++ var ++
    S "\\\x22) ?: \\\x22\\\x22\x7d\\\x22"

/-- `defaultConfig\s*{[^}]*}` (DOTALL) -/
def defaultConfigRE : RE := seqL [.lit (S "defaultConfig"), wsP, .lit [ '\x7b' ],
  .star true (.cls (fun c => c ≠ '\x7d')), .lit [ '\x7d' ]]

def expose_in_buildconfig (fs : FS) (var : Str) : FS × Bool :=
  match gradleTarget fs with
  | none => (fs, false)
  | some kts =>
    let content := readGradle fs kts
    if is_buildconfig_variable_exposed fs var then (fs, true)
    else
      let line := buildConfigLine kts var
      match scanFind (matchAtLitWsBrace (S "android")) content with
      | none => (fs, false)
      | some span =>
        match reFind defaultConfigRE content with
        | some jm =>
          let old := (content.drop jm.1).take jm.2
          let newBlock := old.dropLast ++ '\n' :: line ++ S "\n    \x7d"
          (writeGradle fs kts (pyReplace content old newBlock), true)
        | none =>
          let p := span.1 + span.2
          (writeGradle fs kts
            (content.take p ++ S "\n    defaultConfig \x7b\n" ++ line ++ S "\n    \x7d\n" ++
             content.drop p), true)

def bcNotFoundMsg (var : Str) : Str :=
  S "⚠️ BuildConfig." ++ var ++
  S " not found. Please either:\n1. Add to local.properties: " ++ var ++
  S "=your-actual-key, OR\n2. Ensure it\x27s already exposed in build.gradle buildConfigField\nThen run this command again"

def varNotFoundMsg (var : Str) : Str :=
  S "⚠️ Variable \x27" ++ var ++
  S "\x27 not found. Please either:\n1. Add to local.properties: " ++ var ++
  S "=your-actual-key, OR  \n2. Ensure it\x27s already exposed in build.gradle buildConfigField\nThen run this command again"

def handle_buildconfig_reference (fs : FS) (var : Str) : FS × Str :=
  if is_buildconfig_variable_exposed fs var then (fs, S "BuildConfig." ++ var)
  else
    match find_in_local_properties fs var with
    | some v =>
      if v.isEmpty then (fs, bcNotFoundMsg var)
      else ((expose_in_buildconfig fs var).1, S "BuildConfig." ++ var)
    | none => (fs, bcNotFoundMsg var)

def handle_direct_api_key (fs : FS) (key : Str) : FS × Str :=
  let fs1 := store_in_local_properties fs (S "UXCAM_KEY") key
  let fs2 := (expose_in_buildconfig fs1 (S "UXCAM_KEY")).1
  (fs2, S "BuildConfig.UXCAM_KEY")

def handle_variable_reference (fs : FS) (var : Str) : FS × Str :=
  if is_buildconfig_variable_exposed fs var then (fs, S "BuildConfig." ++ var)
  else
    match find_in_local_properties fs var with
    | some v =>
      if v.isEmpty then (fs, varNotFoundMsg var)
      else ((expose_in_buildconfig fs var).1, S "BuildConfig." ++ var)
    | none => (fs, varNotFoundMsg var)

/-- `app_key_ref.strip().strip(chr(34)).strip(chr(39))` -/
def cleanedKeyOf (ref : Str) : Str := stripCh '\x27' (stripCh '\x22' (pyStrip ref))

/-- The classification of an already-cleaned key, shared by both quoting
forms (the body of `handle_app_key` after the strip calls). -/
def classify_cleaned_key (fs : FS) (cleaned : Str) : FS × Str :=
  if (S "BuildConfig.").isPrefixOf cleaned then
    handle_buildconfig_reference fs (pyReplace cleaned (S "BuildConfig.") [])
  else if is_likely_api_key cleaned then handle_direct_api_key fs cleaned
  else handle_variable_reference fs cleaned

def handle_app_key (fs : FS) (ref : Str) : FS × Str :=
  if ref.isEmpty || (pyStrip ref).isEmpty then (fs, handle_no_key_provided)
  else classify_cleaned_key fs (cleanedKeyOf ref)

/-! ### Locating the injection target -/

def appClassMarker (c : Str) : Bool :=
  pyIn (S "extends Application") c || pyIn (S ": Application()") c ||
  pyIn (S ": Application ") c

def find_application_class (fs : FS) : Option SrcFile :=
  ((fs.srcFiles.filter (fun f => f.isKt)) ++ fs.srcFiles.filter (fun f => !f.isKt)).find?
    (fun f => appClassMarker f.content)

/-- The launcher-activity regular expression (DOTALL). -/
def launcherRE : RE := seqL [
  .lit (S "<activity"), .star true (.cls (fun c => c ≠ '>')),
  .lit (S "android:name=\x22"),
  .grp (.star true (.cls (fun c => c ≠ '\x22'))), .lit [ '\x22' ],
  .star true (.cls (fun c => c ≠ '>')), .lit [ '>' ],
  .star false dotAll,
  .lit (S "<action"), .star true (.cls (fun c => c ≠ '>')),
  .lit (S "android:name=\x22android.intent.action.MAIN\x22"),
  .star true (.cls (fun c => c ≠ '>')), .lit (S "/>"),
  .star false dotAll,
  .lit (S "<category"), .star true (.cls (fun c => c ≠ '>')),
  .lit (S "android:name=\x22android.intent.category.LAUNCHER\x22"),
  .star true (.cls (fun c => c ≠ '>')), .lit (S "/>"),
  .star false dotAll,
  .lit (S "</activity>")]

/-- Group 1 of the launcher match, with a leading relative-package dot
stripped (`if activity_name.startswith(chr(46))`). -/
def manifestLauncherName (m : Str) : Option Str :=
  match reSearch launcherRE m with
  | some (_, _, some g) => some (if g.head? = some '.' then g.drop 1 else g)
  | _ => none

/-- `activity_name.split(chr(46))[-1]` -/
def lastDotComponent (an : Str) : Str := (splitOnCh '.' an).getLastD []

def activityMarker (c : Str) : Bool :=
  pyIn (S "extends Activity") c || pyIn (S "extends AppCompatActivity") c ||
  pyIn (S ": Activity") c || pyIn (S ": AppCompatActivity") c

def find_launcher_activity (fs : FS) : Option SrcFile :=
  match fs.manifest with
  | none => none
  | some m =>
    match manifestLauncherName m with
    | none => none
    | some an =>
      let cand := (fs.srcFiles.filter (fun f => f.isKt && pyIn an f.name)) ++
                  fs.srcFiles.filter (fun f => !f.isKt && pyIn an f.name)
      cand.find? (fun f => pyIn (lastDotComponent an) f.content && activityMarker f.content)

/-! ### Import insertion and initialization injection -/

/-- The insertion index for the import block: absolute index of the first
package line plus one, else the index of the first import line, else 0. -/
def findII : List Str → Option Nat
  | [] => none
  | l :: t =>
    if (S "package ").isPrefixOf (pyStrip l) then some 1
    else if (S "import ").isPrefixOf (pyStrip l) then some 0
    else (findII t).map (fun n => n + 1)

def add_imports_to_file (content : Str) (isKt : Bool) : Str :=
  if pyIn (S "import com.uxcam.UXCam") content then content
  else
    let lines := splitNl content
    let idx := (findII lines).getD 0
    let imps := splitNl (if isKt then KOTLIN_IMPORTS else JAVA_IMPORTS)
    joinNl (lines.take idx ++ imps ++ lines.drop idx)

/-- `override\s+fun\s+onCreate\s*\(\s*\)\s*{` -/
def onCreateAppK : RE := seqL [.lit (S "override"), ws1P, .lit (S "fun"), ws1P,
  .lit (S "onCreate"), wsP, .lit (S "("), wsP, .lit (S ")"), wsP, .lit [ '\x7b' ]]

/-- `@Override\s*\n\s*public\s+void\s+onCreate\s*\(\s*\)\s*{` -/
def onCreateAppJ : RE := seqL [.lit (S "@Override"), wsP, .lit (S "\n"), wsP,
  .lit (S "public"), ws1P, .lit (S "void"), ws1P, .lit (S "onCreate"), wsP,
  .lit (S "("), wsP, .lit (S ")"), wsP, .lit [ '\x7b' ]]

/-- `override\s+fun\s+onCreate\s*\([^)]*\)\s*{` -/
def onCreateActK : RE := seqL [.lit (S "override"), ws1P, .lit (S "fun"), ws1P,
  .lit (S "onCreate"), wsP, .lit (S "("), .star true (.cls (fun c => c ≠ ')')),
  .lit (S ")"), wsP, .lit [ '\x7b' ]]

/-- `@Override\s*\n\s*protected\s+void\s+onCreate\s*\([^)]*\)\s*{` -/
def onCreateActJ : RE := seqL [.lit (S "@Override"), wsP, .lit (S "\n"), wsP,
  .lit (S "protected"), ws1P, .lit (S "void"), ws1P, .lit (S "onCreate"), wsP,
  .lit (S "("), .star true (.cls (fun c => c ≠ ')')), .lit (S ")"), wsP, .lit [ '\x7b' ]]

/-- `super\.onCreate\s*\(\s*\)` plus an optional `\s*;?` tail in Java. -/
def superAppK : RE := seqL [.lit (S "super.onCreate"), wsP, .lit (S "("), wsP, .lit (S ")")]

def superAppJ : RE := seqL [.lit (S "super.onCreate"), wsP, .lit (S "("), wsP, .lit (S ")"),
  wsP, .opt true (.lit (S ";"))]

def superActK : RE := seqL [.lit (S "super.onCreate"), wsP, .lit (S "("),
  .star true (.cls (fun c => c ≠ ')')), .lit (S ")")]

def superActJ : RE := seqL [.lit (S "super.onCreate"), wsP, .lit (S "("),
  .star true (.cls (fun c => c ≠ ')')), .lit (S ")"), wsP, .opt true (.lit (S ";"))]

def onCreateApp (isKt : Bool) : RE := if isKt then onCreateAppK else onCreateAppJ

def superApp (isKt : Bool) : RE := if isKt then superAppK else superAppJ

def onCreateAct (isKt : Bool) : RE := if isKt then onCreateActK else onCreateActJ

def superAct (isKt : Bool) : RE := if isKt then superActK else superActJ

def initMarker : Str := S "UXCam.startWithConfiguration"

def replaceFirstFile : List SrcFile → SrcFile → Str → List SrcFile
  | [], _, _ => []
  | g :: t, f, c => if g = f then { g with content := c } :: t else g :: replaceFirstFile t f c

def updateSrc (fs : FS) (f : SrcFile) (c : Str) : FS :=
  { fs with srcFiles := replaceFirstFile fs.srcFiles f c }

/-- Locate `onCreate`, then the superclass call in the remainder, and splice
the snippet; `none` when the `onCreate` anchor is missing. -/
def injectCore (onC superP : RE) (content snippet : Str) : Option Str :=
  match reFind onC content with
  | none => none
  | some span =>
    let startPos := span.1 + span.2
    let rest := content.drop startPos
    match reFind superP rest with
    | some jm =>
      let p := startPos + jm.1 + jm.2
      some (content.take p ++ '\n' :: snippet ++ content.drop p)
    | none => some (content.take startPos ++ '\n' :: snippet ++ content.drop startPos)

def inject_init_in_application (fs : FS) (f : SrcFile) (expr : Str) : FS × Str :=
  if pyIn initMarker f.content then (fs, S "ℹ️ UXCam already initialized in " ++ f.name)
  else
    let content := add_imports_to_file f.content f.isKt
    let snippet := (if f.isKt then kotlin_snippet else java_snippet) expr
    match injectCore (onCreateApp f.isKt) (superApp f.isKt) content snippet with
    | none => (fs, S "⚠️ Could not find onCreate() method in " ++ f.name)
    | some c2 => (updateSrc fs f c2, S "✔️ Added UXCam initialization to " ++ f.name)

def inject_init_in_activity (fs : FS) (f : SrcFile) (expr : Str) : FS × Str :=
  if pyIn initMarker f.content then (fs, S "ℹ️ UXCam already initialized in " ++ f.name)
  else
    let content := add_imports_to_file f.content f.isKt
    let snippet := (if f.isKt then kotlin_snippet else java_snippet) expr
    match injectCore (onCreateAct f.isKt) (superAct f.isKt) content snippet with
    | none => (fs, S "⚠️ Could not find onCreate() method in " ++ f.name)
    | some c2 => (updateSrc fs f c2, S "✔️ Added UXCam initialization to " ++ f.name)

def inject_init (fs : FS) (key : Str) : FS × Str :=
  if key.isEmpty || (pyStrip key).isEmpty then (fs, handle_no_key_provided)
  else
    let r := handle_app_key fs key
    if (S "⚠️").isPrefixOf r.2 then r
    else
      match find_application_class r.1 with
      | some f => inject_init_in_application r.1 f r.2
      | none =>
        match find_launcher_activity r.1 with
        | some f => inject_init_in_activity r.1 f r.2
        | none =>
          (r.1, S "⚠️ Could not find Application class or LAUNCHER activity to add UXCam initialization")

/-! ### The tool entry point -/

/-- The three steps of `handle_call_tool`, with the threaded project tree. -/
def runAll (fs : FS) (ref : Str) : FS × List Str :=
  let a := add_repo fs
  let b := add_dependency a.1
  let c := inject_init b.1 ref
  (c.1, [a.2, b.2, c.2])

/-- Python `sep.join` for the separator `semicolon-space`. -/
def joinSemi : List Str → Str
  | [] => []
  | [m] => m
  | m :: r => m ++ S "; " ++ joinSemi r

def combinedReport (fs : FS) (ref : Str) : Str :=
  joinSemi ((runAll fs ref).2.filter (fun m => !m.isEmpty))

def isSuccMsg (m : Str) : Bool := (S "✔️").isPrefixOf m

def isInfoMsg (m : Str) : Bool := (S "ℹ️").isPrefixOf m

def isWarnMsg (m : Str) : Bool := (S "⚠️").isPrefixOf m

/-! ### Lemmas about the string primitives -/

theorem pyIn_iff {n h : Str} : pyIn n h = true ↔ n <:+: h := by
  induction h with
  | nil => simp [pyIn, List.isEmpty_iff, List.infix_nil]
  | cons c t ih =>
    simp only [pyIn, Bool.or_eq_true, List.isPrefixOf_iff_prefix, ih, List.infix_cons_iff]

theorem pyIn_of_infix {n h : Str} (hi : n <:+: h) : pyIn n h = true := pyIn_iff.mpr hi

theorem pyIn_middle (a n b : Str) : pyIn n (a ++ (n ++ b)) = true :=
  pyIn_of_infix ⟨a, b, by simp⟩

theorem writeGradle_read (fs : FS) (b : Bool) (h : gradleTarget fs = some b) :
    writeGradle fs b (readGradle fs b) = fs := by
  cases fs with
  | mk sk sg gk gg mf lp gi sf =>
    cases b <;> cases gk <;> cases gg <;>
      simp_all [gradleTarget, readGradle, writeGradle]

theorem writeSettings_read (fs : FS) (b : Bool) (h : settingsTarget fs = some b) :
    writeSettings fs b (readSettings fs b) = fs := by
  cases fs with
  | mk sk sg gk gg mf lp gi sf =>
    cases b <;> cases sk <;> cases sg <;>
      simp_all [settingsTarget, readSettings, writeSettings]

/-! ### Lemmas about the anchor scanner -/

theorem matchAt_some {lit s : Str} {n : Nat} (h : matchAtLitWsBrace lit s = some n) :
    ∃ ws rest, s = lit ++ (ws ++ '\x7b' :: rest) ∧ (∀ c ∈ ws, pySpace c = true) ∧
      n = lit.length + ws.length + 1 := by
  unfold matchAtLitWsBrace at h
  by_cases hp : lit.isPrefixOf s
  case neg => rw [if_neg hp] at h; cases h
  rw [if_pos hp] at h
  simp only at h
  obtain ⟨t, ht⟩ := List.isPrefixOf_iff_prefix.mp hp
  have hdrop : s.drop lit.length = t := by rw [← ht, List.drop_left]
  rw [hdrop] at h
  have hdw : t.drop (t.takeWhile pySpace).length = t.dropWhile pySpace := by
    have h2 := List.takeWhile_append_dropWhile (p := pySpace) (l := t)
    calc t.drop (t.takeWhile pySpace).length
        = (t.takeWhile pySpace ++ t.dropWhile pySpace).drop (t.takeWhile pySpace).length := by
          rw [h2]
      _ = t.dropWhile pySpace := List.drop_left _ _
  rw [hdw] at h
  split at h
  · rename_i tail heq
    refine ⟨t.takeWhile pySpace, tail, ?_, fun c hc => List.mem_takeWhile_imp hc, ?_⟩
    · rw [← ht]
      congr 1
      calc t = t.takeWhile pySpace ++ t.dropWhile pySpace :=
            (List.takeWhile_append_dropWhile (p := pySpace) (l := t)).symm
        _ = t.takeWhile pySpace ++ '\x7b' :: tail := by rw [heq]
    · exact (Option.some.inj h).symm
  · cases h

theorem matchAt_of_shape {lit ws rest : Str} (hws : ∀ c ∈ ws, pySpace c = true) :
    matchAtLitWsBrace lit (lit ++ (ws ++ '\x7b' :: rest)) =
      some (lit.length + ws.length + 1) := by
  unfold matchAtLitWsBrace
  have hp : lit.isPrefixOf (lit ++ (ws ++ '\x7b' :: rest)) :=
    List.isPrefixOf_iff_prefix.mpr ⟨ws ++ '\x7b' :: rest, by simp⟩
  rw [if_pos hp]
  simp only
  rw [List.drop_left]
  have htw : (ws ++ '\x7b' :: rest).takeWhile pySpace = ws := by
    rw [List.takeWhile_append]
    have hall : ws.takeWhile pySpace = ws := List.takeWhile_eq_self_iff.mpr hws
    rw [hall]
    simp [List.takeWhile_cons, pySpace]
  rw [htw, List.drop_left]
  rfl

theorem scanFind_sound {m : Str → Option Nat} {s : Str} {i n : Nat}
    (h : scanFind m s = some (i, n)) :
    m (s.drop i) = some n ∧ ∀ j < i, m (s.drop j) = none := by
  induction s generalizing i n with
  | nil =>
    unfold scanFind at h
    rcases hm : m [] with _ | k <;> rw [hm] at h
    · exact absurd h (by simp)
    · obtain ⟨h1, h2⟩ : (0 : Nat) = i ∧ k = n := by simpa using h
      subst h1; subst h2
      exact ⟨by simpa using hm, by omega⟩
  | cons c t ih =>
    unfold scanFind at h
    rcases hm : m (c :: t) with _ | k <;> rw [hm] at h
    · rcases hs : scanFind m t with _ | p <;> rw [hs] at h
      · exact absurd h (by simp)
      · obtain ⟨h1, h2⟩ : p.1 + 1 = i ∧ p.2 = n := by simpa using h
        obtain ⟨ih1, ih2⟩ := ih (i := p.1) (n := p.2) (by rw [hs])
        subst h1; subst h2
        constructor
        · simpa using ih1
        · intro j hj
          match j with
          | 0 => simpa using hm
          | j + 1 =>
            have : j < p.1 := by omega
            simpa using ih2 j this
    · obtain ⟨h1, h2⟩ : (0 : Nat) = i ∧ k = n := by simpa using h
      subst h1; subst h2
      exact ⟨by simpa using hm, by omega⟩

theorem scanFind_isSome_of {m : Str → Option Nat} {s : Str} {j n : Nat}
    (h : m (s.drop j) = some n) : (scanFind m s).isSome = true := by
  induction s generalizing j with
  | nil =>
    unfold scanFind
    rcases hm : m [] with _ | k
    · rw [List.drop_nil] at h
      exact absurd h (by simp [hm])
    · simp
  | cons c t ih =>
    unfold scanFind
    rcases hm : m (c :: t) with _ | k
    · match j with
      | 0 => exact absurd h (by simp [hm])
      | j + 1 =>
        have := ih (j := j) (by simpa using h)
        rcases hs : scanFind m t with _ | p
        · rw [hs] at this; exact absurd this (by simp)
        · simp
    · simp

theorem scanFind_none {m : Str → Option Nat} {s : Str}
    (h : ∀ j, m (s.drop j) = none) : scanFind m s = none := by
  rcases hs : scanFind m s with _ | p
  · rfl
  · obtain ⟨h1, _⟩ := scanFind_sound hs
    rw [h p.1] at h1
    exact absurd h1 (by simp)

theorem isPrefixOf_append_of {a b : Str} (x : Str) (h : a.isPrefixOf b = true) :
    a.isPrefixOf (b ++ x) = true := by
  rw [List.isPrefixOf_iff_prefix] at h ⊢
  exact h.trans (List.prefix_append b x)

/-! ### Concrete fixtures used by counterexamples and witnesses -/

/-- A manifest whose single activity lists the MAIN action entry before the
LAUNCHER category entry. -/
def manifestMainFirst : Str :=
  S "<manifest><application><activity android:name=\x22.MainActivity\x22><intent-filter><action android:name=\x22android.intent.action.MAIN\x22/><category android:name=\x22android.intent.category.LAUNCHER\x22/></intent-filter></activity></application></manifest>"

/-- The same manifest with the two intent-filter entries swapped: the
LAUNCHER category entry comes before the MAIN action entry. -/
def manifestLauncherFirst : Str :=
  S "<manifest><application><activity android:name=\x22.MainActivity\x22><intent-filter><category android:name=\x22android.intent.category.LAUNCHER\x22/><action android:name=\x22android.intent.action.MAIN\x22/></intent-filter></activity></application></manifest>"

/-- A launcher activity declared with a fully qualified name (no leading
dot). -/
def manifestQualified : Str :=
  S "<manifest><application><activity android:name=\x22com.example.Main\x22><intent-filter><action android:name=\x22android.intent.action.MAIN\x22/><category android:name=\x22android.intent.category.LAUNCHER\x22/></intent-filter></activity></application></manifest>"

/-- A project tree whose only file is a Groovy build file with no
`dependencies` and no `repositories` block opener. -/
def fsNoAnchor : FS := ⟨none, none, none, some (S "x"), none, none, none, []⟩

/-- A project tree with no settings file, no app build file and no manifest. -/
def fsEmpty : FS := ⟨none, none, none, none, none, none, none, []⟩

/-- A Kotlin-DSL-only project and a Groovy-only project with both anchors. -/
def gradleBoth : Str := S "repositories \x7b\n\x7d\ndependencies \x7b\n\x7d\n"

def fsKtsOnly : FS := ⟨none, none, some gradleBoth, none, none, none, none, []⟩

def fsGroovyOnly : FS := ⟨none, none, none, some gradleBoth, none, none, none, []⟩


/-! ### C8 -/

/-- C8: on a project tree with no settings file, no app build file and no
manifest, invoking the operation with an empty key reference leaves the tree
untouched and returns the combined report made of the settings-file-missing
warning, the build-file-missing warning and the no-key-provided guidance. -/
theorem c8_empty_project_report (fs : FS)
    (h1 : fs.settingsKts = none) (h2 : fs.settingsGroovy = none)
    (h3 : fs.gradleKts = none) (h4 : fs.gradleGroovy = none)
    (_h5 : fs.manifest = none) :
    runAll fs [] =
      (fs, [S "⚠️ Neither settings.gradle nor app/build.gradle found",
            S "⚠️ app/build.gradle file not found",
            handle_no_key_provided]) ∧
    pyIn (S "⚠️ Neither settings.gradle nor app/build.gradle found")
      (combinedReport fs []) = true ∧
    pyIn (S "⚠️ app/build.gradle file not found") (combinedReport fs []) = true ∧
    pyIn handle_no_key_provided (combinedReport fs []) = true := by
  have hR : runAll fs [] =
      (fs, [S "⚠️ Neither settings.gradle nor app/build.gradle found",
            S "⚠️ app/build.gradle file not found",
            handle_no_key_provided]) := by
    simp [runAll, add_repo, add_repo_fallback, add_dependency, inject_init,
      settingsTarget, gradleTarget, h1, h2, h3, h4]
  have hC : combinedReport fs [] =
      joinSemi ([S "⚠️ Neither settings.gradle nor app/build.gradle found",
                 S "⚠️ app/build.gradle file not found",
                 handle_no_key_provided].filter (fun m => !m.isEmpty)) := by
    rw [combinedReport, hR]
  refine ⟨hR, ?_, ?_, ?_⟩ <;> rw [hC] <;> decide

/-- C8 witness at the all-missing concrete tree. -/
theorem c8_witness :
    runAll fsEmpty [] =
      (fsEmpty, [S "⚠️ Neither settings.gradle nor app/build.gradle found",
                 S "⚠️ app/build.gradle file not found",
                 handle_no_key_provided]) ∧
    pyIn (S "⚠️ Neither settings.gradle nor app/build.gradle found")
      (combinedReport fsEmpty []) = true ∧
    pyIn (S "⚠️ app/build.gradle file not found") (combinedReport fsEmpty []) = true ∧
    pyIn handle_no_key_provided (combinedReport fsEmpty []) = true :=
  c8_empty_project_report fsEmpty rfl rfl rfl rfl rfl

/-! ### C9 -/

/-- C9: when a source file does not contain the initialization marker and the
expected onCreate signature pattern is not found (on the in-memory copy with
imports inserted), both injection operations return the could-not-find
warning and the project tree, hence the file on disk, is unchanged: the
inserted import lines are discarded. -/
theorem c9_missing_onCreate_discards (fs : FS) (f : SrcFile) (expr : Str)
    (hm : pyIn initMarker f.content = false)
    (ha : reFind (onCreateApp f.isKt) (add_imports_to_file f.content f.isKt) = none)
    (hb : reFind (onCreateAct f.isKt) (add_imports_to_file f.content f.isKt) = none) :
    inject_init_in_application fs f expr =
      (fs, S "⚠️ Could not find onCreate() method in " ++ f.name) ∧
    inject_init_in_activity fs f expr =
      (fs, S "⚠️ Could not find onCreate() method in " ++ f.name) ∧
    isWarnMsg (inject_init_in_application fs f expr).2 = true := by
  have h1 : inject_init_in_application fs f expr =
      (fs, S "⚠️ Could not find onCreate() method in " ++ f.name) := by
    simp [inject_init_in_application, hm, injectCore, ha]
  have h2 : inject_init_in_activity fs f expr =
      (fs, S "⚠️ Could not find onCreate() method in " ++ f.name) := by
    simp [inject_init_in_activity, hm, injectCore, hb]
  refine ⟨h1, h2, ?_⟩
  rw [h1]
  exact isPrefixOf_append_of f.name (by decide)

/-- A Kotlin source file with no onCreate method. -/
def srcNoOnCreate : SrcFile := ⟨S "A.kt", true, S "class A"⟩

/-- C9 witness at a concrete Kotlin file with no onCreate method. -/
theorem c9_witness :
    inject_init_in_application fsEmpty srcNoOnCreate [] =
      (fsEmpty, S "⚠️ Could not find onCreate() method in " ++ srcNoOnCreate.name) ∧
    inject_init_in_activity fsEmpty srcNoOnCreate [] =
      (fsEmpty, S "⚠️ Could not find onCreate() method in " ++ srcNoOnCreate.name) ∧
    isWarnMsg (inject_init_in_application fsEmpty srcNoOnCreate []).2 = true :=
  c9_missing_onCreate_discards fsEmpty srcNoOnCreate [] (by decide) (by decide) (by decide)

/-! ### C2 -/

/-- C2 counterexample: a manifest whose single activity element contains both
entries, but with the LAUNCHER category entry textually before the MAIN
action entry, is not matched at all: the resolver extracts no name, refuting
the any-order reading. -/
theorem c2_counterexample :
    manifestLauncherName manifestLauncherFirst = none ∧
    manifestLauncherName manifestLauncherFirst ≠ some (S "MainActivity") := by
  refine ⟨by decide, ?_⟩
  intro h
  rw [show manifestLauncherName manifestLauncherFirst = none from by decide] at h
  cases h

/-- C2 (amended): the launcher resolver extracts the declared component name,
stripping a leading relative-package dot, when the MAIN action entry
textually precedes the LAUNCHER category entry inside the activity element;
with the LAUNCHER entry first, the same element is not matched. -/
theorem c2_order_sensitive_extraction :
    manifestLauncherName manifestMainFirst = some (S "MainActivity") ∧
    manifestLauncherName manifestQualified = some (S "com.example.Main") ∧
    manifestLauncherName manifestLauncherFirst = none := by
  decide

/-! ### C1 -/

/-- C1 counterexample: an existing Groovy build file in which neither the
`dependencies` opener nor the `repositories` opener occurs: the dependency
step answers with a success message, not a warning, while leaving the file
unchanged. -/
theorem c1_counterexample :
    (add_dependency fsNoAnchor).2 = S "✔️ Added UXCam dependency in app/build.gradle" ∧
    isWarnMsg (add_dependency fsNoAnchor).2 = false ∧
    isSuccMsg (add_dependency fsNoAnchor).2 = true ∧
    (add_dependency fsNoAnchor).1 = fsNoAnchor := by
  decide

/-- C1 (amended): when the block-opener anchor does not occur in the existing
target build file, the dependency step and the repository fallback step each
return a success message naming the file (never a warning) while leaving the
file content unchanged, and the other steps of the operation still run. -/
theorem c1_anchor_missing_spurious_success (fs : FS) (b : Bool) (txt : Str)
    (ht : gradleTarget fs = some b) (hr : readGradle fs b = txt)
    (hd : scanFind (matchAtLitWsBrace (S "dependencies")) txt = none)
    (hdl : pyIn (if b then DEP_LINE_KTS else DEP_LINE_GROOVY) txt = false)
    (hrp : scanFind (matchAtLitWsBrace (S "repositories")) txt = none)
    (hsn : pyIn (if b then MAVEN_REPO_SNIPPET_KTS else MAVEN_REPO_SNIPPET) txt = false) :
    add_dependency fs = (fs, S "✔️ Added UXCam dependency in " ++ gradlePathStr b) ∧
    isSuccMsg (add_dependency fs).2 = true ∧
    isWarnMsg (add_dependency fs).2 = false ∧
    add_repo_fallback fs =
      (fs, S "✔️ Added UXCam Maven repo in " ++ (gradlePathStr b ++ S " (fallback)")) ∧
    isSuccMsg (add_repo_fallback fs).2 = true ∧
    isWarnMsg (add_repo_fallback fs).2 = false ∧
    (∀ ref, (runAll fs ref).2 =
      [(add_repo fs).2, (add_dependency (add_repo fs).1).2,
       (inject_init (add_dependency (add_repo fs).1).1 ref).2]) := by
  have hw : writeGradle fs b txt = fs := by
    rw [← hr]; exact writeGradle_read fs b ht
  have h1 : add_dependency fs = (fs, S "✔️ Added UXCam dependency in " ++ gradlePathStr b) := by
    simp [add_dependency, ht, hr, hdl, hd, reSubOnce, hw]
  have h2 : add_repo_fallback fs =
      (fs, S "✔️ Added UXCam Maven repo in " ++ (gradlePathStr b ++ S " (fallback)")) := by
    simp [add_repo_fallback, ht, hr, hsn, hrp, reSubOnce, hw]
  refine ⟨h1, ?_, ?_, h2, ?_, ?_, fun ref => rfl⟩
  · rw [h1]; rfl
  · rw [h1]; rfl
  · rw [h2]; rfl
  · rw [h2]; rfl

/-- C1 witness at the concrete anchor-free build file. -/
theorem c1_witness :
    add_dependency fsNoAnchor =
      (fsNoAnchor, S "✔️ Added UXCam dependency in " ++ gradlePathStr false) ∧
    isSuccMsg (add_dependency fsNoAnchor).2 = true ∧
    isWarnMsg (add_dependency fsNoAnchor).2 = false :=
  have h := c1_anchor_missing_spurious_success fsNoAnchor false (S "x")
    (by decide) (by decide) (by decide) (by decide) (by decide) (by decide)
  ⟨h.1, h.2.1, h.2.2.1⟩



/-! ### Step-level characterization lemmas (applied insertions) -/

theorem pyIn_insert (a sep line b : Str) :
    pyIn line (a ++ ((sep ++ line) ++ b)) = true :=
  pyIn_of_infix ⟨a ++ sep, b, by simp⟩

/-- When the target exists, the dependency line is absent and the
`dependencies` anchor is found, `add_dependency` splices the dialect line
right after the anchor and reports success. -/
theorem add_dependency_inserts (fs : FS) (b : Bool) (txt : Str) (i n : Nat)
    (ht : gradleTarget fs = some b) (hr : readGradle fs b = txt)
    (hnl : pyIn (if b then DEP_LINE_KTS else DEP_LINE_GROOVY) txt = false)
    (hf : scanFind (matchAtLitWsBrace (S "dependencies")) txt = some (i, n)) :
    add_dependency fs =
      (writeGradle fs b
        (txt.take (i + n) ++
          ((S "\n    " ++ (if b then DEP_LINE_KTS else DEP_LINE_GROOVY)) ++ txt.drop (i + n))),
       S "✔️ Added UXCam dependency in " ++ gradlePathStr b) := by
  simp [add_dependency, ht, hr, hnl, hf, reSubOnce]

/-- Same for the repository fallback step and the Maven snippet. -/
theorem add_repo_fallback_inserts (fs : FS) (b : Bool) (txt : Str) (i n : Nat)
    (ht : gradleTarget fs = some b) (hr : readGradle fs b = txt)
    (hns : pyIn (if b then MAVEN_REPO_SNIPPET_KTS else MAVEN_REPO_SNIPPET) txt = false)
    (hf : scanFind (matchAtLitWsBrace (S "repositories")) txt = some (i, n)) :
    add_repo_fallback fs =
      (writeGradle fs b
        (txt.take (i + n) ++
          ((S "\n        " ++ (if b then MAVEN_REPO_SNIPPET_KTS else MAVEN_REPO_SNIPPET)) ++
            txt.drop (i + n))),
       S "✔️ Added UXCam Maven repo in " ++ (gradlePathStr b ++ S " (fallback)")) := by
  simp [add_repo_fallback, ht, hr, hns, hf, reSubOnce]

/-! ### C7 -/

/-- C7: file resolution prefers the Kotlin-DSL path when it exists, else the
Groovy path (for both the settings file and the app build file), and every
inserted snippet follows the selected file dialect: with only the
Kotlin-DSL build file present, the dependency step and the repository
fallback step insert the Kotlin-DSL line and snippet; with only the Groovy
file present, they insert the Groovy line and snippet. -/
theorem c7_dialect_selection :
    (∀ fs c, fs.gradleKts = some c → gradleTarget fs = some true) ∧
    (∀ fs c, fs.gradleKts = none → fs.gradleGroovy = some c → gradleTarget fs = some false) ∧
    (∀ fs c, fs.settingsKts = some c → settingsTarget fs = some true) ∧
    (∀ fs c, fs.settingsKts = none → fs.settingsGroovy = some c →
      settingsTarget fs = some false) ∧
    (∀ fs txt i n, fs.gradleKts = some txt →
      pyIn DEP_LINE_KTS txt = false →
      scanFind (matchAtLitWsBrace (S "dependencies")) txt = some (i, n) →
      (add_dependency fs).1.gradleKts =
        some (txt.take (i + n) ++ ((S "\n    " ++ DEP_LINE_KTS) ++ txt.drop (i + n))) ∧
      pyIn DEP_LINE_KTS (((add_dependency fs).1.gradleKts).getD []) = true) ∧
    (∀ fs txt i n, fs.gradleKts = none → fs.gradleGroovy = some txt →
      pyIn DEP_LINE_GROOVY txt = false →
      scanFind (matchAtLitWsBrace (S "dependencies")) txt = some (i, n) →
      (add_dependency fs).1.gradleGroovy =
        some (txt.take (i + n) ++ ((S "\n    " ++ DEP_LINE_GROOVY) ++ txt.drop (i + n))) ∧
      pyIn DEP_LINE_GROOVY (((add_dependency fs).1.gradleGroovy).getD []) = true) ∧
    (∀ fs txt i n, fs.gradleKts = some txt →
      pyIn MAVEN_REPO_SNIPPET_KTS txt = false →
      scanFind (matchAtLitWsBrace (S "repositories")) txt = some (i, n) →
      (add_repo_fallback fs).1.gradleKts =
        some (txt.take (i + n) ++ ((S "\n        " ++ MAVEN_REPO_SNIPPET_KTS) ++ txt.drop (i + n))) ∧
      pyIn MAVEN_REPO_SNIPPET_KTS (((add_repo_fallback fs).1.gradleKts).getD []) = true) ∧
    (∀ fs txt i n, fs.gradleKts = none → fs.gradleGroovy = some txt →
      pyIn MAVEN_REPO_SNIPPET txt = false →
      scanFind (matchAtLitWsBrace (S "repositories")) txt = some (i, n) →
      (add_repo_fallback fs).1.gradleGroovy =
        some (txt.take (i + n) ++ ((S "\n        " ++ MAVEN_REPO_SNIPPET) ++ txt.drop (i + n))) ∧
      pyIn MAVEN_REPO_SNIPPET (((add_repo_fallback fs).1.gradleGroovy).getD []) = true) := by
  refine ⟨?_, ?_, ?_, ?_, ?_, ?_, ?_, ?_⟩
  · intro fs c h; simp [gradleTarget, h]
  · intro fs c h1 h2; simp [gradleTarget, h1, h2]
  · intro fs c h; simp [settingsTarget, h]
  · intro fs c h1 h2; simp [settingsTarget, h1, h2]
  · intro fs txt i n hk hnl hf
    have ht : gradleTarget fs = some true := by simp [gradleTarget, hk]
    have hr : readGradle fs true = txt := by simp [readGradle, hk]
    have h := add_dependency_inserts fs true txt i n ht hr (by simpa using hnl) hf
    rw [h]
    refine ⟨by simp [writeGradle], ?_⟩
    simp only [writeGradle, Option.getD_some]
    exact pyIn_of_infix ⟨txt.take (i + n) ++ S "\n    ", txt.drop (i + n), by simp⟩
  · intro fs txt i n hk hg hnl hf
    have ht : gradleTarget fs = some false := by simp [gradleTarget, hk, hg]
    have hr : readGradle fs false = txt := by simp [readGradle, hg]
    have h := add_dependency_inserts fs false txt i n ht hr (by simpa using hnl) hf
    rw [h]
    refine ⟨by simp [writeGradle], ?_⟩
    simp only [writeGradle, Option.getD_some]
    exact pyIn_of_infix ⟨txt.take (i + n) ++ S "\n    ", txt.drop (i + n), by simp⟩
  · intro fs txt i n hk hns hf
    have ht : gradleTarget fs = some true := by simp [gradleTarget, hk]
    have hr : readGradle fs true = txt := by simp [readGradle, hk]
    have h := add_repo_fallback_inserts fs true txt i n ht hr (by simpa using hns) hf
    rw [h]
    refine ⟨by simp [writeGradle], ?_⟩
    simp only [writeGradle, Option.getD_some]
    exact pyIn_of_infix ⟨txt.take (i + n) ++ S "\n        ", txt.drop (i + n), by simp⟩
  · intro fs txt i n hk hg hns hf
    have ht : gradleTarget fs = some false := by simp [gradleTarget, hk, hg]
    have hr : readGradle fs false = txt := by simp [readGradle, hg]
    have h := add_repo_fallback_inserts fs false txt i n ht hr (by simpa using hns) hf
    rw [h]
    refine ⟨by simp [writeGradle], ?_⟩
    simp only [writeGradle, Option.getD_some]
    exact pyIn_of_infix ⟨txt.take (i + n) ++ S "\n        ", txt.drop (i + n), by simp⟩

/-! ### Bound lemmas about the regex engine (for C4) -/

theorem mAll_rest_le {fuel : Nat} {r : RE} {s : Str} :
    ∀ x ∈ mAll fuel r s, x.1.length ≤ s.length := by
  induction fuel generalizing r s with
  | zero => intro x hx; simp [mAll] at hx
  | succ fuel ih =>
    intro x hx
    cases r with
    | eps =>
      simp only [mAll, List.mem_singleton] at hx
      subst hx
      exact Nat.le_refl _
    | lit w =>
      simp only [mAll] at hx
      split at hx
      · simp only [List.mem_singleton] at hx
        subst hx
        simp only [List.length_drop]
        omega
      · simp at hx
    | litCI w =>
      simp only [mAll] at hx
      split at hx
      · simp only [List.mem_singleton] at hx
        subst hx
        simp only [List.length_drop]
        omega
      · simp at hx
    | cls p =>
      rcases s with _ | ⟨c, t⟩
      · simp [mAll] at hx
      · simp only [mAll] at hx
        split at hx
        · simp only [List.mem_singleton] at hx
          subst hx
          simp only [List.length_cons]
          omega
        · simp at hx
    | seq a b =>
      simp only [mAll, List.mem_flatMap, List.mem_map] at hx
      obtain ⟨y, hy, z, hz, hzx⟩ := hx
      have h1 := ih y hy
      have h2 := ih z hz
      rw [← hzx]
      simp only
      omega
    | opt g a =>
      cases g
      · simp only [mAll, List.mem_cons] at hx
        rcases hx with h | h
        · subst h; exact Nat.le_refl _
        · exact ih x h
      · simp only [mAll, List.mem_append, List.mem_singleton] at hx
        rcases hx with h | h
        · exact ih x h
        · subst h; exact Nat.le_refl _
    | star g a =>
      cases g
      · simp only [mAll, List.mem_cons, List.mem_flatMap] at hx
        rcases hx with h | ⟨y, hy, hxy⟩
        · subst h; exact Nat.le_refl _
        · split at hxy
          · simp only [List.mem_map] at hxy
            obtain ⟨z, hz, hzx⟩ := hxy
            have h2 := ih z hz
            rename_i hguard
            rw [← hzx]
            simp only
            omega
          · simp at hxy
      · simp only [mAll, List.mem_append, List.mem_flatMap, List.mem_singleton] at hx
        rcases hx with ⟨y, hy, hxy⟩ | h
        · split at hxy
          · simp only [List.mem_map] at hxy
            obtain ⟨z, hz, hzx⟩ := hxy
            have h2 := ih z hz
            rename_i hguard
            rw [← hzx]
            simp only
            omega
          · simp at hxy
        · subst h; exact Nat.le_refl _
    | grp a =>
      simp only [mAll, List.mem_map] at hx
      obtain ⟨z, hz, hzx⟩ := hx
      have h2 := ih z hz
      rw [← hzx]
      simpa using h2

theorem mAll_seq_lit_consumed {fuel : Nat} {w : Str} {r : RE} {s : Str} :
    ∀ x ∈ mAll (fuel + 1) (.seq (.lit w) r) s, x.1.length + w.length ≤ s.length := by
  intro x hx
  simp only [mAll, List.mem_flatMap, List.mem_map] at hx
  obtain ⟨y, hy, z, hz, hzx⟩ := hx
  cases fuel with
  | zero => simp [mAll] at hy
  | succ f =>
    simp only [mAll] at hy
    split at hy
    · rename_i hp
      simp only [List.mem_singleton] at hy
      have hlen : w.length ≤ s.length := (List.isPrefixOf_iff_prefix.mp hp).length_le
      have hy1 : y.1.length = s.length - w.length := by
        rw [hy, List.length_drop]
      have h2 := mAll_rest_le z hz
      rw [← hzx]
      simp only
      omega
    · simp at hy

theorem reTryAt_le {r : RE} {s : Str} {n : Nat} {g : Option Str}
    (h : reTryAt r s = some (n, g)) : n ≤ s.length := by
  unfold reTryAt at h
  rcases hm : mAll (sFuel r s) r s with _ | ⟨x, t⟩ <;> rw [hm] at h
  · cases h
  · obtain ⟨h1, h2⟩ : s.length - x.1.length = n ∧ x.2 = g := by
      simpa using Option.some.inj h
    omega

theorem reTryAt_seq_lit_ge {w : Str} {r : RE} {s : Str} {n : Nat} {g : Option Str}
    (h : reTryAt (.seq (.lit w) r) s = some (n, g)) : w.length ≤ n := by
  unfold reTryAt at h
  rcases hm : mAll (sFuel (.seq (.lit w) r) s) (.seq (.lit w) r) s with _ | ⟨x, t⟩ <;>
    rw [hm] at h
  · cases h
  · have hx : x ∈ mAll (sFuel (.seq (.lit w) r) s) (.seq (.lit w) r) s := by
      rw [hm]; exact List.mem_cons_self x t
    have hpos : 0 < sFuel (.seq (.lit w) r) s := by
      unfold sFuel
      positivity
    obtain ⟨f, hf⟩ := Nat.exists_eq_succ_of_ne_zero (Nat.pos_iff_ne_zero.mp hpos)
    rw [hf] at hx
    have hcons := mAll_seq_lit_consumed x hx
    obtain ⟨h1, h2⟩ : s.length - x.1.length = n ∧ x.2 = g := by
      simpa using Option.some.inj h
    omega

theorem reSearch_le {r : RE} {s : Str} {i n : Nat} {g : Option Str}
    (h : reSearch r s = some (i, n, g)) : i + n ≤ s.length := by
  induction s generalizing i n g with
  | nil =>
    unfold reSearch at h
    rcases hm : reTryAt r [] with _ | ⟨k, gg⟩ <;> rw [hm] at h
    · cases h
    · obtain ⟨h1, h2, h3⟩ : (0 : Nat) = i ∧ k = n ∧ gg = g := by
        simpa using Option.some.inj h
      subst h1; subst h2
      simpa using reTryAt_le hm
  | cons c t ih =>
    unfold reSearch at h
    rcases hm : reTryAt r (c :: t) with _ | ⟨k, gg⟩ <;> rw [hm] at h
    · rcases hs : reSearch r t with _ | x <;> rw [hs] at h
      · cases h
      · rcases x with ⟨i0, n0, g0⟩
        obtain ⟨h1, h2, h3⟩ : i0 + 1 = i ∧ n0 = n ∧ g0 = g := by
          simpa using Option.some.inj h
        have h4 := ih (g := g0) (by rw [hs])
        simp only [List.length_cons]
        omega
    · obtain ⟨h1, h2, h3⟩ : (0 : Nat) = i ∧ k = n ∧ gg = g := by
        simpa using Option.some.inj h
      have h4 := reTryAt_le hm
      simp only [List.length_cons] at h4 ⊢
      omega

theorem reSearch_seq_lit_ge {w : Str} {r : RE} {s : Str} {i n : Nat} {g : Option Str}
    (h : reSearch (.seq (.lit w) r) s = some (i, n, g)) : w.length ≤ n := by
  induction s generalizing i n g with
  | nil =>
    unfold reSearch at h
    rcases hm : reTryAt (.seq (.lit w) r) [] with _ | ⟨k, gg⟩ <;> rw [hm] at h
    · cases h
    · obtain ⟨h1, h2, h3⟩ : (0 : Nat) = i ∧ k = n ∧ gg = g := by
        simpa using Option.some.inj h
      subst h2
      exact reTryAt_seq_lit_ge hm
  | cons c t ih =>
    unfold reSearch at h
    rcases hm : reTryAt (.seq (.lit w) r) (c :: t) with _ | ⟨k, gg⟩ <;> rw [hm] at h
    · rcases hs : reSearch (.seq (.lit w) r) t with _ | x <;> rw [hs] at h
      · cases h
      · rcases x with ⟨i0, n0, g0⟩
        obtain ⟨h1, h2, h3⟩ : i0 + 1 = i ∧ n0 = n ∧ g0 = g := by
          simpa using Option.some.inj h
        have h4 := ih (g := g0) (by rw [hs])
        omega
    · obtain ⟨h1, h2, h3⟩ : (0 : Nat) = i ∧ k = n ∧ gg = g := by
        simpa using Option.some.inj h
      subst h2
      exact reTryAt_seq_lit_ge hm

theorem reFind_le {r : RE} {s : Str} {i n : Nat} (h : reFind r s = some (i, n)) :
    i + n ≤ s.length := by
  unfold reFind at h
  rcases hs : reSearch r s with _ | x <;> rw [hs] at h
  · cases h
  · rcases x with ⟨i0, n0, g0⟩
    obtain ⟨h1, h2⟩ : i0 = i ∧ n0 = n := by
      simpa using Option.some.inj h
    subst h1; subst h2
    exact reSearch_le (g := g0) (by rw [hs])

theorem reFind_seq_lit_ge {w : Str} {r : RE} {s : Str} {i n : Nat}
    (h : reFind (.seq (.lit w) r) s = some (i, n)) : w.length ≤ n := by
  unfold reFind at h
  rcases hs : reSearch (.seq (.lit w) r) s with _ | x <;> rw [hs] at h
  · cases h
  · rcases x with ⟨i0, n0, g0⟩
    obtain ⟨h1, h2⟩ : i0 = i ∧ n0 = n := by
      simpa using Option.some.inj h
    subst h2
    exact reSearch_seq_lit_ge (g := g0) (by rw [hs])

/-! ### The replace-all primitive preserves an occurrence (for C4) -/

theorem replaceAllF_contains {old new : Str} :
    ∀ fuel (s : Str), s.length < fuel → old ≠ [] → old <:+: s →
      new <:+: replaceAllF fuel old new s := by
  intro fuel
  induction fuel with
  | zero => intro s h; omega
  | succ f ih =>
    intro s hlen hne hinf
    unfold replaceAllF
    rw [if_neg (by simpa [List.isEmpty_iff] using hne)]
    by_cases hp : old.isPrefixOf s
    · rw [if_pos hp]
      exact ⟨[], _, rfl⟩
    · rw [if_neg hp]
      cases s with
      | nil => exact absurd (List.infix_nil.mp hinf) hne
      | cons c t =>
        have hinf2 : old <:+: t := by
          rcases List.infix_cons_iff.mp hinf with h | h
          · exact absurd (List.isPrefixOf_iff_prefix.mpr h) (by simpa using hp)
          · exact h
        exact List.infix_cons (ih t (by simpa using Nat.lt_of_succ_lt_succ hlen) hne hinf2)

theorem pyReplace_contains {s old new : Str} (hne : old ≠ []) (hinf : old <:+: s) :
    new <:+: pyReplace s old new :=
  replaceAllF_contains (s.length + 1) s (by omega) hne hinf

/-! ### Field-preservation lemmas (for C4) -/

theorem ensure_gitignore_gradleKts (fs : FS) :
    (ensure_gitignore_has_local_properties fs).gradleKts = fs.gradleKts := by
  unfold ensure_gitignore_has_local_properties
  rcases h : fs.gitignore with _ | c
  · simp only [h]
  · simp only [h]
    by_cases h2 : pyIn (S "local.properties") c = true
    · rw [if_pos h2]
    · rw [if_neg h2]

theorem ensure_gitignore_gradleGroovy (fs : FS) :
    (ensure_gitignore_has_local_properties fs).gradleGroovy = fs.gradleGroovy := by
  unfold ensure_gitignore_has_local_properties
  rcases h : fs.gitignore with _ | c
  · simp only [h]
  · simp only [h]
    by_cases h2 : pyIn (S "local.properties") c = true
    · rw [if_pos h2]
    · rw [if_neg h2]

theorem store_gradleKts (fs : FS) (name v : Str) :
    (store_in_local_properties fs name v).gradleKts = fs.gradleKts := by
  unfold store_in_local_properties
  rw [ensure_gitignore_gradleKts]

theorem store_gradleGroovy (fs : FS) (name v : Str) :
    (store_in_local_properties fs name v).gradleGroovy = fs.gradleGroovy := by
  unfold store_in_local_properties
  rw [ensure_gitignore_gradleGroovy]

theorem gradleTarget_eq_of (fs1 fs2 : FS) (h1 : fs1.gradleKts = fs2.gradleKts)
    (h2 : fs1.gradleGroovy = fs2.gradleGroovy) : gradleTarget fs1 = gradleTarget fs2 := by
  unfold gradleTarget
  rw [h1, h2]

theorem readGradle_eq_of (fs1 fs2 : FS) (b : Bool) (h1 : fs1.gradleKts = fs2.gradleKts)
    (h2 : fs1.gradleGroovy = fs2.gradleGroovy) : readGradle fs1 b = readGradle fs2 b := by
  cases b <;> simp [readGradle, h1, h2]

theorem readGradle_write (fs : FS) (b : Bool) (c : Str) :
    readGradle (writeGradle fs b c) b = c := by
  cases b <;> simp [readGradle, writeGradle]

theorem writeGradle_localProps (fs : FS) (b : Bool) (c : Str) :
    (writeGradle fs b c).localProps = fs.localProps := by
  cases b <;> simp [writeGradle]

/-! ### Lemmas about the strip primitives (for C10) -/

theorem lstripP_cons_of {p : Char → Bool} {c : Char} (l : Str) (hc : p c = true) :
    lstripP p (c :: l) = lstripP p l := by
  simp [lstripP, List.dropWhile_cons, hc]

theorem lstripP_cons_of_neg {p : Char → Bool} {c : Char} (l : Str) (hc : p c = false) :
    lstripP p (c :: l) = c :: l := by
  simp [lstripP, List.dropWhile_cons, hc]

theorem rstripP_append_last {p : Char → Bool} {a : Char} (l : Str) (ha : p a = true) :
    rstripP p (l ++ [a]) = rstripP p l := by
  simp [rstripP, List.reverse_append, List.dropWhile_cons, ha]

/-- Stripping a character class from a value wrapped in one more matching
character on each side gives the same result as stripping the bare value. -/
theorem stripP_wrap {p : Char → Bool} {a : Char} (l : Str) (ha : p a = true) :
    stripP p (a :: (l ++ [a])) = stripP p l := by
  unfold stripP
  rw [lstripP_cons_of _ ha]
  unfold lstripP
  rw [List.dropWhile_append]
  split
  · rename_i h
    have h1 : List.dropWhile p [a] = [] := by simp [List.dropWhile_cons, ha]
    rw [h1]
    have h2 : List.dropWhile p l = [] := List.isEmpty_iff.mp h
    rw [h2]
  · rename_i h
    exact rstripP_append_last _ ha

/-- A value whose first and last characters are outside the class is left
unchanged by the strip. -/
theorem stripP_id {p : Char → Bool} {l : Str}
    (h1 : ∀ c, l.head? = some c → p c = false)
    (h2 : ∀ c, l.getLast? = some c → p c = false) : stripP p l = l := by
  cases l with
  | nil => rfl
  | cons c t =>
    unfold stripP
    rw [lstripP_cons_of_neg _ (h1 c rfl)]
    unfold rstripP
    rcases hrev : (c :: t).reverse with _ | ⟨d, r⟩
    · exact absurd hrev (by simp)
    · have hd : (c :: t).getLast? = some d := by
        rw [← List.head?_reverse, hrev]
        rfl
      rw [List.dropWhile_cons, h2 d hd]
      simp [← hrev]

theorem getLast?_wrap (a : Char) (l : Str) : (a :: (l ++ [a])).getLast? = some a := by
  rw [show a :: (l ++ [a]) = (a :: l) ++ [a] from rfl]
  exact List.getLast?_concat _

/-! ### Lemmas about splitNl and joinNl (for C6) -/

theorem splitNl_ne_nil (s : Str) : splitNl s ≠ [] := by
  induction s with
  | nil => simp [splitNl]
  | cons c t ih =>
    unfold splitNl
    by_cases hc : c = '\n'
    · simp [hc]
    · rw [if_neg hc]
      rcases h : splitNl t with _ | ⟨a, r⟩
      · exact absurd h ih
      · simp

theorem mem_splitNl_no_nl {s : Str} : ∀ l ∈ splitNl s, '\n' ∉ l := by
  induction s with
  | nil =>
    intro l hl
    simp [splitNl] at hl
    subst hl
    simp
  | cons c t ih =>
    intro l hl
    unfold splitNl at hl
    by_cases hc : c = '\n'
    · rw [if_pos hc] at hl
      rcases List.mem_cons.mp hl with h | h
      · subst h; simp
      · exact ih l h
    · rw [if_neg hc] at hl
      rcases h : splitNl t with _ | ⟨a, r⟩
      · exact absurd h (splitNl_ne_nil t)
      · rw [h] at hl
        rcases List.mem_cons.mp hl with h2 | h2
        · subst h2
          intro hmem
          rcases List.mem_cons.mp hmem with h3 | h3
          · exact hc h3.symm
          · exact ih a (h ▸ List.mem_cons_self a r) h3
        · exact ih l (h ▸ List.mem_cons_of_mem a h2)

theorem splitNl_single {l : Str} (h : '\n' ∉ l) : splitNl l = [l] := by
  induction l with
  | nil => rfl
  | cons c t ih =>
    have hc : ¬(c = '\n') := fun hcc => h (hcc ▸ List.mem_cons_self c t)
    unfold splitNl
    rw [if_neg hc, ih (fun hm => h (List.mem_cons_of_mem c hm))]

theorem splitNl_append_cons {l : Str} (x : Str) (h : '\n' ∉ l) :
    splitNl (l ++ '\n' :: x) = l :: splitNl x := by
  induction l with
  | nil => simp [splitNl]
  | cons c t ih =>
    have hc : ¬(c = '\n') := fun hcc => h (hcc ▸ List.mem_cons_self c t)
    rw [List.cons_append, splitNl, if_neg hc, ih (fun hm => h (List.mem_cons_of_mem c hm))]

theorem splitNl_joinNl {L : List Str} (hne : L ≠ []) (hfree : ∀ l ∈ L, '\n' ∉ l) :
    splitNl (joinNl L) = L := by
  induction L with
  | nil => exact absurd rfl hne
  | cons l r ih =>
    cases r with
    | nil => exact splitNl_single (hfree l (List.mem_cons_self l []))
    | cons l2 r2 =>
      show splitNl (l ++ '\n' :: joinNl (l2 :: r2)) = _
      rw [splitNl_append_cons _ (hfree l (List.mem_cons_self _ _))]
      rw [ih (by simp) (fun a ha => hfree a (List.mem_cons_of_mem l ha))]

theorem infix_joinNl {L : List Str} {l : Str} (h : l ∈ L) : l <:+: joinNl L := by
  induction L with
  | nil => cases h
  | cons a r ih =>
    cases r with
    | nil =>
      rcases List.mem_cons.mp h with h2 | h2
      · subst h2; exact List.infix_refl _
      · cases h2
    | cons a2 r2 =>
      rcases List.mem_cons.mp h with h2 | h2
      · subst h2
        exact ⟨[], '\n' :: joinNl (a2 :: r2), by simp [joinNl]⟩
      · obtain ⟨s, t, hst⟩ := ih h2
        refine ⟨a ++ ('\n' :: s), t, ?_⟩
        have hj : joinNl (a :: a2 :: r2) = a ++ '\n' :: joinNl (a2 :: r2) := rfl
        rw [hj, ← hst]
        simp

/-! ### Lemmas about the store loop (for C6) -/

theorem rstripP_append (p : Char → Bool) (A B : Str) :
    rstripP p (A ++ B) =
      if (rstripP p B).isEmpty then rstripP p A else A ++ rstripP p B := by
  unfold rstripP
  rw [List.reverse_append, List.dropWhile_append]
  by_cases h : (List.dropWhile p B.reverse).isEmpty
  · rw [if_pos h]
    have h2 : ((List.dropWhile p B.reverse).reverse).isEmpty = true := by
      rw [List.isEmpty_iff] at h ⊢
      simp [h]
    rw [if_pos h2]
  · rw [if_neg h]
    have h2 : ¬((List.dropWhile p B.reverse).reverse).isEmpty = true := by
      rw [List.isEmpty_iff] at h ⊢
      simpa using h
    rw [if_neg h2, List.reverse_append, List.reverse_reverse]

theorem rstripP_last_id {p : Char → Bool} {A : Str} {a : Char}
    (hA : A.getLast? = some a) (ha : p a = false) : rstripP p A = A := by
  unfold rstripP
  rcases hrev : A.reverse with _ | ⟨d, r⟩
  · have : A = [] := by simpa using congrArg List.reverse hrev
    simp [this]
  · have hd : d = a := by
      have h2 := List.head?_reverse A
      rw [hrev, hA] at h2
      simpa using h2
    subst hd
    rw [List.dropWhile_cons, ha]
    simp [← hrev]

/-- A stored `NAME=value` line passes the replace-test of its own name. -/
theorem lineTest_entry (name v : Str) (hne : name ≠ [])
    (hh : ∀ c, name.head? = some c → pySpace c = false) :
    lineTest name (name ++ '=' :: v) = true := by
  obtain ⟨c, nm, rfl⟩ : ∃ c nm, name = c :: nm := by
    cases name with
    | nil => exact absurd rfl hne
    | cons c nm => exact ⟨c, nm, rfl⟩
  have hc : pySpace c = false := hh c rfl
  unfold lineTest pyStrip stripP
  rw [show (c :: nm) ++ '=' :: v = c :: (nm ++ '=' :: v) from rfl]
  rw [lstripP_cons_of_neg _ hc]
  rw [show c :: (nm ++ '=' :: v) = ((c :: nm) ++ [ '=' ]) ++ v from by simp]
  rw [rstripP_append]
  have hlast : ((c :: nm) ++ [ '=' ]).getLast? = some '=' := List.getLast?_concat _
  by_cases h : (rstripP pySpace v).isEmpty
  · rw [if_pos h, rstripP_last_id hlast (by decide)]
    exact List.isPrefixOf_iff_prefix.mpr (List.prefix_refl _)
  · rw [if_neg h]
    exact isPrefixOf_append_of _ (List.isPrefixOf_iff_prefix.mpr (List.prefix_refl _))

theorem replaceFirstLine_none_iff {name entry : Str} {L : List Str} :
    replaceFirstLine name entry L = none ↔ ∀ l ∈ L, lineTest name l = false := by
  induction L with
  | nil => simp [replaceFirstLine]
  | cons l t ih =>
    unfold replaceFirstLine
    by_cases h : lineTest name l = true
    · simp [h]
    · have hf : lineTest name l = false := by simpa using h
      rw [if_neg (by simp [hf])]
      rcases hr : replaceFirstLine name entry t with _ | r
      · simp only [Option.map_none']
        constructor
        · intro _ a ha
          rcases List.mem_cons.mp ha with h2 | h2
          · subst h2; exact hf
          · exact (ih.mp hr) a h2
        · intro _; trivial
      · simp only [Option.map_some']
        constructor
        · intro hcontra; cases hcontra
        · intro hall
          have h3 := ih.mpr (fun a ha => hall a (List.mem_cons_of_mem l ha))
          rw [h3] at hr
          cases hr

theorem replaceFirstLine_some {name entry : Str} {L R : List Str}
    (h : replaceFirstLine name entry L = some R) :
    ∃ A l0 B, L = A ++ l0 :: B ∧ R = A ++ entry :: B ∧
      lineTest name l0 = true ∧ ∀ l ∈ A, lineTest name l = false := by
  induction L generalizing R with
  | nil => cases h
  | cons l t ih =>
    unfold replaceFirstLine at h
    by_cases hl : lineTest name l = true
    · rw [if_pos hl] at h
      exact ⟨[], l, t, by simp, by simpa using (Option.some.inj h).symm, hl, by simp⟩
    · have hf : lineTest name l = false := by simpa using hl
      rw [if_neg (by simp [hf])] at h
      rcases hr : replaceFirstLine name entry t with _ | r
      · rw [hr] at h; cases h
      · rw [hr] at h
        obtain ⟨A, l0, B, h1, h2, h3, h4⟩ := ih hr
        refine ⟨l :: A, l0, B, by simp [h1], ?_, h3, ?_⟩
        · have h5 : R = l :: r := by simpa using (Option.some.inj h).symm
          simp [h5, h2]
        · intro a ha
          rcases List.mem_cons.mp ha with h5 | h5
          · subst h5; exact hf
          · exact h4 a h5

theorem replaceFirstLine_skip {name entry : Str} {A : List Str}
    (hA : ∀ l ∈ A, lineTest name l = false) (l0 : Str) (hl0 : lineTest name l0 = true)
    (B : List Str) :
    replaceFirstLine name entry (A ++ l0 :: B) = some (A ++ entry :: B) := by
  induction A with
  | nil =>
    simp only [List.nil_append]
    unfold replaceFirstLine
    rw [if_pos hl0]
  | cons a t ih =>
    have ha : lineTest name a = false := hA a (List.mem_cons_self a t)
    rw [List.cons_append]
    unfold replaceFirstLine
    rw [if_neg (by simp [ha])]
    rw [ih (fun l hl => hA l (List.mem_cons_of_mem a hl))]
    simp

theorem filter_one {name entry : Str} {A B : List Str}
    (hA : ∀ l ∈ A, lineTest name l = false) (hB : ∀ l ∈ B, lineTest name l = false)
    (he : lineTest name entry = true) :
    (A ++ entry :: B).filter (lineTest name) = [entry] := by
  rw [List.filter_append, List.filter_cons_of_pos he]
  rw [List.filter_eq_nil_iff.mpr (fun a ha => by simp [hA a ha]),
      List.filter_eq_nil_iff.mpr (fun a ha => by simp [hB a ha])]
  rfl

theorem storeL_spec {L : List Str} {name v : Str}
    (huniq : (L.filter (lineTest name)).length ≤ 1)
    (_htest : lineTest name (name ++ '=' :: v) = true) :
    ∃ A B, storeL L name v = A ++ (name ++ '=' :: v) :: B ∧
      (∀ l ∈ A, lineTest name l = false) ∧ (∀ l ∈ B, lineTest name l = false) ∧
      (∀ l ∈ A, l ∈ L) ∧ (∀ l ∈ B, l ∈ L) := by
  unfold storeL
  simp only
  rcases hr : replaceFirstLine name (name ++ '=' :: v) L with _ | R
  · have hall := replaceFirstLine_none_iff.mp hr
    by_cases hc : (!L.isEmpty && (pyStrip (L.getLastD [])).isEmpty) = true
    · rw [if_pos hc]
      exact ⟨L.dropLast, [], rfl,
        fun l hl => hall l ((List.dropLast_sublist L).subset hl), by simp,
        fun l hl => (List.dropLast_sublist L).subset hl, by simp⟩
    · rw [if_neg hc]
      exact ⟨L, [], rfl, hall, by simp, fun l hl => hl, by simp⟩
  · obtain ⟨A, l0, B, hL, hR, hl0, hAfail⟩ := replaceFirstLine_some hr
    have hBfail : ∀ l ∈ B, lineTest name l = false := by
      rw [hL, List.filter_append, List.filter_cons_of_pos hl0] at huniq
      have hlen : (List.filter (lineTest name) B).length = 0 := by
        rw [List.length_append, List.length_cons] at huniq
        omega
      intro l hl
      have h2 := List.filter_eq_nil_iff.mp (List.length_eq_zero.mp hlen) l hl
      simpa using h2
    refine ⟨A, B, hR, hAfail, hBfail, ?_, ?_⟩
    · intro l hl; rw [hL]; exact List.mem_append.mpr (Or.inl hl)
    · intro l hl; rw [hL]; exact List.mem_append.mpr (Or.inr (List.mem_cons_of_mem l0 hl))

theorem ensure_gitignore_localProps (fs : FS) :
    (ensure_gitignore_has_local_properties fs).localProps = fs.localProps := by
  unfold ensure_gitignore_has_local_properties
  rcases h : fs.gitignore with _ | c
  · simp only [h]
  · simp only [h]
    by_cases h2 : pyIn (S "local.properties") c = true
    · rw [if_pos h2]
    · rw [if_neg h2]

theorem store_localProps (fs : FS) (name v : Str) :
    (store_in_local_properties fs name v).localProps =
      some (joinNl (storeL (linesOfFS fs) name v)) := by
  unfold store_in_local_properties
  rw [ensure_gitignore_localProps]

/-- Membership of the stored entry in the new line list, whatever branch the
store loop takes. -/
theorem entry_mem_storeL (L : List Str) (name v : Str) :
    (name ++ '=' :: v) ∈ storeL L name v := by
  unfold storeL
  simp only
  rcases hr : replaceFirstLine name (name ++ '=' :: v) L with _ | R
  · by_cases hc : (!L.isEmpty && (pyStrip (L.getLastD [])).isEmpty) = true
    · rw [if_pos hc]
      exact List.mem_append.mpr (Or.inr (List.mem_cons_self _ _))
    · rw [if_neg hc]
      exact List.mem_append.mpr (Or.inr (List.mem_cons_self _ _))
  · obtain ⟨A, l0, B, _, hR, _, _⟩ := replaceFirstLine_some hr
    rw [hR]
    exact List.mem_append.mpr (Or.inr (List.mem_cons_self _ _))


/-! ### C6 -/

/-- A properties file that already holds two lines for the same name. -/
def propsDup : Str := S "K=a\nK=b"

def fsDup : FS := ⟨none, none, none, none, none, some propsDup, none, []⟩

/-- C6 counterexample: starting from a properties file with two lines for
`K`, storing `K` twice leaves two lines for `K` (the replace loop only
rewrites the first match), the second of which still holds the stale value,
refuting the exactly-one-line claim for arbitrary initial content. -/
theorem c6_counterexample :
    (splitNl (((store_in_local_properties
        (store_in_local_properties fsDup (S "K") (S "v1")) (S "K") (S "v2")).localProps).getD
          [])).filter (lineTest (S "K")) = [S "K=v2", S "K=b"] := by
  decide

/-- C6 (amended): provided the initial properties content holds at most one
line for the stored name, and the name and both values are newline-free with
the name non-empty and not starting with whitespace, storing the name first
with one value and then with another leaves exactly one line for that name,
holding the second value. -/
theorem c6_store_twice (fs : FS) (name v1 v2 : Str)
    (hn : '\n' ∉ name) (hv1 : '\n' ∉ v1) (hv2 : '\n' ∉ v2)
    (hne : name ≠ [])
    (hh : ∀ c, name.head? = some c → pySpace c = false)
    (huniq : ((linesOfFS fs).filter (lineTest name)).length ≤ 1) :
    (splitNl (((store_in_local_properties
        (store_in_local_properties fs name v1) name v2).localProps).getD
          [])).filter (lineTest name) = [name ++ '=' :: v2] := by
  have htest1 := lineTest_entry name v1 hne hh
  have htest2 := lineTest_entry name v2 hne hh
  have hfree0 : ∀ l ∈ linesOfFS fs, '\n' ∉ l := by
    unfold linesOfFS
    cases fs.localProps with
    | none => simp
    | some c => exact fun l hl => mem_splitNl_no_nl l hl
  obtain ⟨A, B, hsl, hAf, hBf, hAL, hBL⟩ := storeL_spec huniq htest1
  have hlp1 : (store_in_local_properties fs name v1).localProps =
      some (joinNl (A ++ (name ++ '=' :: v1) :: B)) := by
    rw [store_localProps, hsl]
  have hent1 : '\n' ∉ name ++ '=' :: v1 := by
    intro hm
    rcases List.mem_append.mp hm with h3 | h3
    · exact hn h3
    · rcases List.mem_cons.mp h3 with h4 | h4
      · exact absurd h4 (by decide)
      · exact hv1 h4
  have hfree1 : ∀ l ∈ A ++ (name ++ '=' :: v1) :: B, '\n' ∉ l := by
    intro l hl
    rcases List.mem_append.mp hl with h | h
    · exact hfree0 l (hAL l h)
    · rcases List.mem_cons.mp h with h2 | h2
      · subst h2; exact hent1
      · exact hfree0 l (hBL l h2)
  have hlines1 : linesOfFS (store_in_local_properties fs name v1) =
      A ++ (name ++ '=' :: v1) :: B := by
    unfold linesOfFS
    rw [hlp1]
    exact splitNl_joinNl (by simp) hfree1
  have huniq1 : ((linesOfFS (store_in_local_properties fs name v1)).filter
      (lineTest name)).length ≤ 1 := by
    rw [hlines1, filter_one hAf hBf htest1]
    simp
  obtain ⟨A2, B2, hsl2, hA2f, hB2f, hA2L, hB2L⟩ := storeL_spec huniq1 htest2
  have hlp2 : (store_in_local_properties
      (store_in_local_properties fs name v1) name v2).localProps =
      some (joinNl (A2 ++ (name ++ '=' :: v2) :: B2)) := by
    rw [store_localProps, hsl2]
  have hent2 : '\n' ∉ name ++ '=' :: v2 := by
    intro hm
    rcases List.mem_append.mp hm with h3 | h3
    · exact hn h3
    · rcases List.mem_cons.mp h3 with h4 | h4
      · exact absurd h4 (by decide)
      · exact hv2 h4
  have hfree2 : ∀ l ∈ A2 ++ (name ++ '=' :: v2) :: B2, '\n' ∉ l := by
    intro l hl
    rcases List.mem_append.mp hl with h | h
    · have hm := hA2L l h
      rw [hlines1] at hm
      exact hfree1 l hm
    · rcases List.mem_cons.mp h with h2 | h2
      · subst h2; exact hent2
      · have hm := hB2L l h2
        rw [hlines1] at hm
        exact hfree1 l hm
  rw [hlp2]
  simp only [Option.getD_some]
  rw [splitNl_joinNl (by simp) hfree2]
  exact filter_one hA2f hB2f htest2

/-- C6 witness: a fresh tree with no properties file. -/
theorem c6_witness :
    (splitNl (((store_in_local_properties
        (store_in_local_properties fsEmpty (S "K") (S "a")) (S "K") (S "b")).localProps).getD
          [])).filter (lineTest (S "K")) = [S "K" ++ '=' :: S "b"] :=
  c6_store_twice fsEmpty (S "K") (S "a") (S "b") (by decide) (by decide) (by decide)
    (by decide) (fun c hc => by cases hc; decide) (by decide)

/-! ### C3 -/

/-- A build file whose first anchor-pattern match (`repositories{`) precedes
its first literal `repositories` + space + brace occurrence. -/
def txtC : Str := S "repositories\x7b\nrepositories \x7b\n\x7d"

def fsC : FS := ⟨none, none, none, some txtC, none, none, none, []⟩

/-- C3 counterexample: with an earlier `repositories{` (no space) in the
file, the snippet is spliced after that first pattern match, not after the
first literal `repositories` + space + brace occurrence, refuting the claim
read with the literal opener. -/
theorem c3_counterexample :
    (add_repo_fallback fsC).1.gradleGroovy =
      some (S "repositories\x7b\n        " ++ MAVEN_REPO_SNIPPET ++
        S "\nrepositories \x7b\n\x7d") ∧
    (add_repo_fallback fsC).1.gradleGroovy ≠
      some (S "repositories\x7b\nrepositories \x7b\n        " ++ MAVEN_REPO_SNIPPET ++
        S "\n\x7d") := by
  constructor <;> decide

/-- C3 (amended): for every build file containing the literal
`repositories` + space + brace opener and not already containing the
repository snippet, the patch splices the snippet line immediately after the
first match of the opener pattern (`repositories` + optional whitespace +
brace), leaving everything before that match and the whole remainder of the
block after it unchanged. -/
theorem c3_insert_after_first_anchor (fs : FS) (b : Bool) (txt : Str)
    (ht : gradleTarget fs = some b) (hr : readGradle fs b = txt)
    (hs : pyIn (if b then MAVEN_REPO_SNIPPET_KTS else MAVEN_REPO_SNIPPET) txt = false)
    (hanchor : pyIn (S "repositories \x7b") txt = true) :
    ∃ i n ws rest,
      scanFind (matchAtLitWsBrace (S "repositories")) txt = some (i, n) ∧
      txt = txt.take i ++ (S "repositories" ++ (ws ++ '\x7b' :: rest)) ∧
      (∀ c ∈ ws, pySpace c = true) ∧
      n = 12 + ws.length + 1 ∧
      (∀ j, j < i → matchAtLitWsBrace (S "repositories") (txt.drop j) = none) ∧
      add_repo_fallback fs =
        (writeGradle fs b
          (txt.take i ++ (S "repositories" ++ (ws ++ '\x7b' ::
            ((S "\n        " ++ (if b then MAVEN_REPO_SNIPPET_KTS else MAVEN_REPO_SNIPPET)) ++
              rest)))),
         S "✔️ Added UXCam Maven repo in " ++ (gradlePathStr b ++ S " (fallback)")) := by
  obtain ⟨u, v, huv⟩ := pyIn_iff.mp hanchor
  have hXdrop : txt.drop u.length = S "repositories" ++ ([ ' ' ] ++ '\x7b' :: v) := by
    rw [← huv]
    have h1 : u ++ S "repositories \x7b" ++ v = u ++ (S "repositories \x7b" ++ v) := by
      simp
    rw [h1, List.drop_left]
    rfl
  have hmatch : matchAtLitWsBrace (S "repositories") (txt.drop u.length) =
      some ((S "repositories").length + (List.length [ ' ' ]) + 1) := by
    rw [hXdrop]
    exact matchAt_of_shape (by intro c hc; simp at hc; subst hc; rfl)
  have hsome := scanFind_isSome_of hmatch
  obtain ⟨p, hfind⟩ := Option.isSome_iff_exists.mp hsome
  rcases p with ⟨i, n⟩
  obtain ⟨hmi, hmin⟩ := scanFind_sound hfind
  obtain ⟨ws, rest, hdec, hws, hn⟩ := matchAt_some hmi
  have hdecomp : txt = txt.take i ++ (S "repositories" ++ (ws ++ '\x7b' :: rest)) := by
    have h2 : txt = txt.take i ++ txt.drop i := (List.take_append_drop i txt).symm
    rw [hdec] at h2
    exact h2
  have hn2 : n = 12 + ws.length + 1 := by simpa using hn
  have hYlen : (S "repositories" ++ (ws ++ [ '\x7b' ])).length = n := by
    simp [hn2]
    omega
  have hY : txt.take (i + n) = txt.take i ++ (S "repositories" ++ (ws ++ [ '\x7b' ])) := by
    rw [List.take_add, hdec]
    congr 1
    have h3 : S "repositories" ++ (ws ++ '\x7b' :: rest) =
        (S "repositories" ++ (ws ++ [ '\x7b' ])) ++ rest := by simp
    rw [h3, ← hYlen, List.take_left]
  have hD : txt.drop (i + n) = rest := by
    rw [← List.drop_drop, hdec]
    have h3 : S "repositories" ++ (ws ++ '\x7b' :: rest) =
        (S "repositories" ++ (ws ++ [ '\x7b' ])) ++ rest := by simp
    rw [h3, ← hYlen, List.drop_left]
  have hins := add_repo_fallback_inserts fs b txt i n ht hr hs hfind
  refine ⟨i, n, ws, rest, hfind, hdecomp, hws, hn2, fun j hj => hmin j hj, ?_⟩
  rw [hins, hY, hD]
  simp [List.append_assoc]

/-- C3 witness at the concrete Groovy-only project. -/
theorem c3_witness :
    ∃ i n ws rest,
      scanFind (matchAtLitWsBrace (S "repositories")) gradleBoth = some (i, n) ∧
      gradleBoth = gradleBoth.take i ++ (S "repositories" ++ (ws ++ '\x7b' :: rest)) ∧
      (∀ c ∈ ws, pySpace c = true) ∧
      n = 12 + ws.length + 1 ∧
      (∀ j, j < i → matchAtLitWsBrace (S "repositories") (gradleBoth.drop j) = none) ∧
      add_repo_fallback fsGroovyOnly =
        (writeGradle fsGroovyOnly false
          (gradleBoth.take i ++ (S "repositories" ++ (ws ++ '\x7b' ::
            ((S "\n        " ++ MAVEN_REPO_SNIPPET) ++ rest)))),
         S "✔️ Added UXCam Maven repo in " ++ (gradlePathStr false ++ S " (fallback)")) := by
  have h := c3_insert_after_first_anchor fsGroovyOnly false gradleBoth rfl rfl
    (by decide) (by decide)
  simpa using h

/-! ### C4 -/

/-- The expose step always rewrites the selected build file with a content
containing the synthesized buildConfigField line, under the stated
preconditions (target exists, constant not yet exposed, `android` anchor
found). -/
theorem expose_inserts_line (fs1 : FS) (b : Bool) (var : Str)
    (ht1 : gradleTarget fs1 = some b)
    (hexp1 : is_buildconfig_variable_exposed fs1 var = false)
    (hand1 : (scanFind (matchAtLitWsBrace (S "android")) (readGradle fs1 b)).isSome = true) :
    ∃ g2, (expose_in_buildconfig fs1 var).1 = writeGradle fs1 b g2 ∧
      pyIn (buildConfigLine b var) g2 = true := by
  obtain ⟨sp, hsp⟩ := Option.isSome_iff_exists.mp hand1
  unfold expose_in_buildconfig
  rw [ht1]
  simp only [hexp1, Bool.false_eq_true, if_false, hsp]
  set content := readGradle fs1 b with hcontent
  rcases hdc : reFind defaultConfigRE content with _ | jm
  · refine ⟨_, rfl, ?_⟩
    exact pyIn_of_infix
      ⟨content.take (sp.1 + sp.2) ++ S "\n    defaultConfig \x7b\n",
       S "\n    \x7d\n" ++ content.drop (sp.1 + sp.2), by simp⟩
  · have hdc2 : reFind (.seq (.lit (S "defaultConfig"))
        (seqL [wsP, .lit [ '\x7b' ], .star true (.cls (fun c => c ≠ '\x7d')),
          .lit [ '\x7d' ]])) content = some jm := hdc
    have hle := reFind_le hdc2
    have hge := reFind_seq_lit_ge hdc2
    have hlen_drop : (content.drop jm.1).length = content.length - jm.1 :=
      List.length_drop _ _
    have hold_len : ((content.drop jm.1).take jm.2).length = jm.2 := by
      rw [List.length_take, hlen_drop]
      omega
    have hne : (content.drop jm.1).take jm.2 ≠ [] := by
      intro hcon
      rw [hcon] at hold_len
      simp at hold_len
      have : (13 : Nat) ≤ jm.2 := by simpa using hge
      omega
    have hinf : (content.drop jm.1).take jm.2 <:+: content := by
      refine ⟨content.take jm.1, (content.drop jm.1).drop jm.2, ?_⟩
      rw [List.append_assoc, List.take_append_drop, List.take_append_drop]
    refine ⟨_, rfl, ?_⟩
    have hrep := @pyReplace_contains _ _
      (((content.drop jm.1).take jm.2).dropLast ++ '\n' :: buildConfigLine b var ++
        S "\n    \x7d") hne hinf
    have hline : buildConfigLine b var <:+:
        ((content.drop jm.1).take jm.2).dropLast ++ '\n' :: buildConfigLine b var ++
          S "\n    \x7d" :=
      ⟨((content.drop jm.1).take jm.2).dropLast ++ [ '\n' ], S "\n    \x7d", by simp⟩
    exact pyIn_of_infix (hline.trans hrep)

/-- C4: the direct-key classifier accepts a cleaned key exactly when it is
longer than 20 characters, contains an alphanumeric character, and is
neither purely alphabetic nor purely numeric; every accepted key is stored
as a UXCAM_KEY line in the properties file, the UXCAM_KEY buildConfigField
declaration is spliced into the selected build file (when that file exists
with an `android` anchor and the constant is not yet exposed), and the
returned expression is BuildConfig.UXCAM_KEY. -/
theorem c4_direct_key_classification :
    (∀ v : Str, is_likely_api_key v = true ↔
      (20 < v.length ∧ (∃ c ∈ v, c.isAlphanum = true) ∧
        ¬(∀ c ∈ v, c.isAlpha = true) ∧ ¬(∀ c ∈ v, c.isDigit = true))) ∧
    (∀ fs key b, is_likely_api_key key = true → gradleTarget fs = some b →
      is_buildconfig_variable_exposed fs (S "UXCAM_KEY") = false →
      (scanFind (matchAtLitWsBrace (S "android")) (readGradle fs b)).isSome = true →
      (handle_direct_api_key fs key).2 = S "BuildConfig.UXCAM_KEY" ∧
      (∃ c, (handle_direct_api_key fs key).1.localProps = some c ∧
        pyIn (S "UXCAM_KEY=" ++ key) c = true) ∧
      pyIn (buildConfigLine b (S "UXCAM_KEY"))
        (readGradle (handle_direct_api_key fs key).1 b) = true) := by
  constructor
  · intro v
    unfold is_likely_api_key pyIsAlpha pyIsDigit
    constructor
    · intro h
      simp only [Bool.and_eq_true, decide_eq_true_eq, List.any_eq_true,
        Bool.not_eq_true'] at h
      obtain ⟨⟨⟨h1, h2⟩, h3⟩, h4⟩ := h
      have hne : v.isEmpty = false := by
        cases v with
        | nil => simp at h1
        | cons _ _ => rfl
      refine ⟨h1, h2, ?_, ?_⟩
      · intro hall
        rw [hne] at h3
        simp only [Bool.not_false, Bool.true_and] at h3
        rw [List.all_eq_true.mpr hall] at h3
        cases h3
      · intro hall
        rw [hne] at h4
        simp only [Bool.not_false, Bool.true_and] at h4
        rw [List.all_eq_true.mpr hall] at h4
        cases h4
    · rintro ⟨h1, h2, h3, h4⟩
      have hne : v.isEmpty = false := by
        cases v with
        | nil => simp at h1
        | cons _ _ => rfl
      simp only [Bool.and_eq_true, decide_eq_true_eq, List.any_eq_true,
        Bool.not_eq_true', hne, Bool.not_false, Bool.true_and]
      refine ⟨⟨⟨h1, h2⟩, ?_⟩, ?_⟩
      · cases hall : v.all Char.isAlpha
        · rfl
        · exact absurd (fun c hc => List.all_eq_true.mp hall c hc) h3
      · cases hall : v.all Char.isDigit
        · rfl
        · exact absurd (fun c hc => List.all_eq_true.mp hall c hc) h4
  · intro fs key b _hlik ht hexp handr
    have hk := store_gradleKts fs (S "UXCAM_KEY") key
    have hg := store_gradleGroovy fs (S "UXCAM_KEY") key
    set fs1 := store_in_local_properties fs (S "UXCAM_KEY") key with hfs1
    have ht1 : gradleTarget fs1 = some b := by
      rw [gradleTarget_eq_of fs1 fs hk hg]
      exact ht
    have hr1 : readGradle fs1 b = readGradle fs b := readGradle_eq_of fs1 fs b hk hg
    have hbc : is_buildconfig_variable_exposed fs1 (S "UXCAM_KEY") =
        is_buildconfig_variable_exposed fs (S "UXCAM_KEY") := by
      unfold is_buildconfig_variable_exposed
      rw [ht1, ht]
      simp only
      rw [hr1]
    have hexp1 : is_buildconfig_variable_exposed fs1 (S "UXCAM_KEY") = false := by
      rw [hbc]
      exact hexp
    have hand1 : (scanFind (matchAtLitWsBrace (S "android")) (readGradle fs1 b)).isSome =
        true := by
      rw [hr1]
      exact handr
    obtain ⟨g2, hg2, hpy⟩ := expose_inserts_line fs1 b (S "UXCAM_KEY") ht1 hexp1 hand1
    have hfst : (handle_direct_api_key fs key).1 = writeGradle fs1 b g2 := by
      unfold handle_direct_api_key
      rw [← hfs1, hg2]
    refine ⟨rfl, ?_, ?_⟩
    · refine ⟨joinNl (storeL (linesOfFS fs) (S "UXCAM_KEY") key), ?_, ?_⟩
      · rw [hfst, writeGradle_localProps, hfs1, store_localProps]
      · have hmem := entry_mem_storeL (linesOfFS fs) (S "UXCAM_KEY") key
        have hinf := infix_joinNl hmem
        have heq : S "UXCAM_KEY=" ++ key = S "UXCAM_KEY" ++ '=' :: key := by
          rw [show S "UXCAM_KEY=" = S "UXCAM_KEY" ++ [ '=' ] from rfl]
          simp
        rw [heq]
        exact pyIn_of_infix hinf
    · rw [hfst, readGradle_write]
      exact hpy

/-- A Groovy-only project with an android block and no defaultConfig. -/
def fsAndroid : FS := ⟨none, none, none, some (S "android \x7b\n\x7d\n"), none, none, none, []⟩

def keyW : Str := S "abcd-1234-efgh-5678-xyz99"

/-- C4 witness at a concrete project and key. -/
theorem c4_witness :
    is_likely_api_key keyW = true ∧
    (handle_direct_api_key fsAndroid keyW).2 = S "BuildConfig.UXCAM_KEY" ∧
    (∃ c, (handle_direct_api_key fsAndroid keyW).1.localProps = some c ∧
      pyIn (S "UXCAM_KEY=" ++ keyW) c = true) ∧
    pyIn (buildConfigLine false (S "UXCAM_KEY"))
      (readGradle (handle_direct_api_key fsAndroid keyW).1 false) = true :=
  have h := c4_direct_key_classification.2 fsAndroid keyW false (by decide) (by decide)
    (by decide) (by decide)
  ⟨(c4_direct_key_classification.1 keyW).mpr (by decide), h.1, h.2.1, h.2.2⟩

/-! ### C10 -/

/-- The quoted variable-name string that separates the two quoting orders. -/
def sQuoted : Str := S "\x22SOMEKEY\x22"

/-- C10 counterexample: for the key reference consisting of a double-quoted
word, wrapping it in single quotes changes the result of the key handler:
double quotes are stripped first, so the single-quoted form keeps its inner
double quotes while the bare form loses them. -/
theorem c10_counterexample :
    handle_app_key fsEmpty ('\x27' :: (sQuoted ++ [ '\x27' ])) ≠
      handle_app_key fsEmpty sQuoted := by
  decide

/-- C10 (amended): the key handler strips surrounding double quotes first and
then surrounding single quotes; for every non-empty key reference without
leading or trailing whitespace, wrapping it in double quotes never changes
the result, and wrapping it in single quotes does not change the result
provided the reference does not begin or end with a double quote. -/
theorem c10_quote_stripping (fs : FS) (s : Str) (hne : s ≠ []) (hstrip : pyStrip s = s) :
    handle_app_key fs ('\x22' :: (s ++ [ '\x22' ])) = handle_app_key fs s ∧
    (s.head? ≠ some '\x22' → s.getLast? ≠ some '\x22' →
      handle_app_key fs ('\x27' :: (s ++ [ '\x27' ])) = handle_app_key fs s) := by
  have hsne : s.isEmpty = false := by
    cases s
    · exact absurd rfl hne
    · rfl
  have hstrip_s_ne : (pyStrip s).isEmpty = false := by rw [hstrip]; exact hsne
  have happ : ∀ r : Str, r.isEmpty = false → (pyStrip r).isEmpty = false →
      handle_app_key fs r = classify_cleaned_key fs (cleanedKeyOf r) := by
    intro r h1 h2
    simp [handle_app_key, h1, h2]
  constructor
  · -- double-quote wrapping
    have hid : pyStrip ('\x22' :: (s ++ [ '\x22' ])) = '\x22' :: (s ++ [ '\x22' ]) := by
      apply stripP_id
      · intro c hc
        rw [List.head?_cons] at hc
        cases hc
        decide
      · intro c hc
        rw [getLast?_wrap] at hc
        cases hc
        decide
    have hcl : cleanedKeyOf ('\x22' :: (s ++ [ '\x22' ])) = cleanedKeyOf s := by
      unfold cleanedKeyOf
      rw [hid, hstrip]
      congr 1
      exact stripP_wrap s (by decide)
    rw [happ _ (by rfl) (by rw [hid]; rfl), happ s hsne hstrip_s_ne, hcl]
  · -- single-quote wrapping
    intro hh hl
    have hid : pyStrip ('\x27' :: (s ++ [ '\x27' ])) = '\x27' :: (s ++ [ '\x27' ]) := by
      apply stripP_id
      · intro c hc
        rw [List.head?_cons] at hc
        cases hc
        decide
      · intro c hc
        rw [getLast?_wrap] at hc
        cases hc
        decide
    have hdq_id : stripCh '\x22' ('\x27' :: (s ++ [ '\x27' ])) =
        '\x27' :: (s ++ [ '\x27' ]) := by
      apply stripP_id
      · intro c hc
        rw [List.head?_cons] at hc
        cases hc
        decide
      · intro c hc
        rw [getLast?_wrap] at hc
        cases hc
        decide
    have hdq_s : stripCh '\x22' s = s := by
      apply stripP_id
      · intro c hc
        have : c ≠ '\x22' := by
          intro h
          exact hh (by rw [hc, h])
        simpa using this
      · intro c hc
        have : c ≠ '\x22' := by
          intro h
          exact hl (by rw [hc, h])
        simpa using this
    have hcl : cleanedKeyOf ('\x27' :: (s ++ [ '\x27' ])) = cleanedKeyOf s := by
      unfold cleanedKeyOf
      rw [hid, hstrip, hdq_id, hdq_s]
      exact stripP_wrap s (by decide)
    rw [happ _ (by rfl) (by rw [hid]; rfl), happ s hsne hstrip_s_ne, hcl]

/-- C10 witness at a concrete bare word. -/
theorem c10_witness :
    handle_app_key fsEmpty ('\x22' :: (S "SOMEKEY" ++ [ '\x22' ])) =
      handle_app_key fsEmpty (S "SOMEKEY") ∧
    handle_app_key fsEmpty ('\x27' :: (S "SOMEKEY" ++ [ '\x27' ])) =
      handle_app_key fsEmpty (S "SOMEKEY") :=
  have h := c10_quote_stripping fsEmpty (S "SOMEKEY") (by decide) (by decide)
  ⟨h.1, h.2 (by decide) (by decide)⟩

/-- C7 witness: concrete Kotlin-DSL-only and Groovy-only projects. -/
theorem c7_witness :
    gradleTarget fsKtsOnly = some true ∧
    gradleTarget fsGroovyOnly = some false ∧
    pyIn DEP_LINE_KTS (((add_dependency fsKtsOnly).1.gradleKts).getD []) = true ∧
    pyIn DEP_LINE_GROOVY (((add_dependency fsGroovyOnly).1.gradleGroovy).getD []) = true ∧
    pyIn MAVEN_REPO_SNIPPET_KTS (((add_repo_fallback fsKtsOnly).1.gradleKts).getD []) = true ∧
    pyIn MAVEN_REPO_SNIPPET (((add_repo_fallback fsGroovyOnly).1.gradleGroovy).getD []) = true :=
  ⟨c7_dialect_selection.1 fsKtsOnly gradleBoth rfl,
   c7_dialect_selection.2.1 fsGroovyOnly gradleBoth rfl rfl,
   (c7_dialect_selection.2.2.2.2.1 fsKtsOnly gradleBoth 17 14 rfl (by decide) (by decide)).2,
   (c7_dialect_selection.2.2.2.2.2.1 fsGroovyOnly gradleBoth 17 14 rfl rfl (by decide)
     (by decide)).2,
   (c7_dialect_selection.2.2.2.2.2.2.1 fsKtsOnly gradleBoth 0 14 rfl (by decide) (by decide)).2,
   (c7_dialect_selection.2.2.2.2.2.2.2 fsGroovyOnly gradleBoth 0 14 rfl rfl (by decide)
     (by decide)).2⟩

/-! ### C5: second-run behavior of the repository / dependency steps

Field-preservation facts for the two writers, evaluation lemmas for each
branch of the two steps, and the key combinatorial fact: an occurrence of
the Maven snippet in a build file survives the splice performed at a
`dependencies\s*\x7b` anchor, because such an anchor match cannot end
strictly inside the snippet. -/

theorem settingsTarget_writeGradle (fs : FS) (b : Bool) (c : Str) :
    settingsTarget (writeGradle fs b c) = settingsTarget fs := by
  cases b <;> rfl

theorem readSettings_writeGradle (fs : FS) (b : Bool) (c : Str) (k : Bool) :
    readSettings (writeGradle fs b c) k = readSettings fs k := by
  cases b <;> cases k <;> rfl

theorem gradleTarget_writeSettings (fs : FS) (k : Bool) (c : Str) :
    gradleTarget (writeSettings fs k c) = gradleTarget fs := by
  cases k <;> rfl

theorem readGradle_writeSettings (fs : FS) (k : Bool) (c : Str) (b : Bool) :
    readGradle (writeSettings fs k c) b = readGradle fs b := by
  cases k <;> cases b <;> rfl

theorem gradleTarget_writeGradle (fs : FS) (b : Bool) (c : Str)
    (h : gradleTarget fs = some b) : gradleTarget (writeGradle fs b c) = some b := by
  cases b
  · rcases hx : fs.gradleKts with _ | v
    · simp [writeGradle, gradleTarget, hx]
    · simp [gradleTarget, hx] at h
  · simp [writeGradle, gradleTarget]

theorem settingsTarget_writeSettings (fs : FS) (k : Bool) (c : Str)
    (h : settingsTarget fs = some k) : settingsTarget (writeSettings fs k c) = some k := by
  cases k
  · rcases hx : fs.settingsKts with _ | v
    · simp [writeSettings, settingsTarget, hx]
    · simp [settingsTarget, hx] at h
  · simp [writeSettings, settingsTarget]

theorem readSettings_write (fs : FS) (k : Bool) (c : Str) :
    readSettings (writeSettings fs k c) k = c := by
  cases k <;> simp [readSettings, writeSettings]

theorem add_dependency_warn (fs : FS) (ht : gradleTarget fs = none) :
    add_dependency fs = (fs, S "⚠️ app/build.gradle file not found") := by
  simp [add_dependency, ht]

theorem add_dependency_info (fs : FS) (b : Bool) (ht : gradleTarget fs = some b)
    (h : pyIn (if b then DEP_LINE_KTS else DEP_LINE_GROOVY) (readGradle fs b) = true) :
    add_dependency fs = (fs, S "ℹ️ Dependency already present") := by
  simp [add_dependency, ht, h]

theorem add_repo_fallback_warn (fs : FS) (ht : gradleTarget fs = none) :
    add_repo_fallback fs = (fs, S "⚠️ Neither settings.gradle nor app/build.gradle found") := by
  simp [add_repo_fallback, ht]

theorem add_repo_fallback_info (fs : FS) (b : Bool) (ht : gradleTarget fs = some b)
    (h : pyIn (if b then MAVEN_REPO_SNIPPET_KTS else MAVEN_REPO_SNIPPET)
      (readGradle fs b) = true) :
    add_repo_fallback fs = (fs, S "ℹ️ Maven repo already present in app/build.gradle") := by
  simp [add_repo_fallback, ht, h]

theorem add_repo_no_settings (fs : FS) (ht : settingsTarget fs = none) :
    add_repo fs = add_repo_fallback fs := by
  simp [add_repo, ht]

theorem add_repo_settings_info (fs : FS) (k : Bool) (ht : settingsTarget fs = some k)
    (h : pyIn (if k then MAVEN_REPO_SNIPPET_KTS else MAVEN_REPO_SNIPPET)
      (readSettings fs k) = true) :
    add_repo fs = (fs, S "ℹ️ Maven repo already present in settings.gradle") := by
  simp [add_repo, ht, h]

theorem add_repo_drm_none (fs : FS) (k : Bool) (ht : settingsTarget fs = some k)
    (h : pyIn (if k then MAVEN_REPO_SNIPPET_KTS else MAVEN_REPO_SNIPPET)
      (readSettings fs k) = false)
    (hd : reFind drmRE (readSettings fs k) = none) :
    add_repo fs = add_repo_fallback fs := by
  simp [add_repo, ht, h, hd]

theorem add_repo_drm_inserts (fs : FS) (k : Bool) (i n : Nat)
    (ht : settingsTarget fs = some k)
    (h : pyIn (if k then MAVEN_REPO_SNIPPET_KTS else MAVEN_REPO_SNIPPET)
      (readSettings fs k) = false)
    (hd : reFind drmRE (readSettings fs k) = some (i, n)) :
    add_repo fs =
      (writeSettings fs k
        ((readSettings fs k).take (i + n) ++
          ((S "\n        " ++ (if k then MAVEN_REPO_SNIPPET_KTS else MAVEN_REPO_SNIPPET)) ++
            (readSettings fs k).drop (i + n))),
       S "✔️ Added UXCam Maven repo in " ++
         (settingsPathStr k ++ S " (dependencyResolutionManagement)")) := by
  simp [add_repo, ht, h, hd, reSubOnce]

theorem inject_init_empty (fs : FS) : inject_init fs [] = (fs, handle_no_key_provided) := by
  simp [inject_init]

theorem runAll_empty_key (fs : FS) :
    runAll fs [] = ((add_dependency (add_repo fs).1).1,
      [(add_repo fs).2, (add_dependency (add_repo fs).1).2, handle_no_key_provided]) := by
  simp [runAll, inject_init_empty]

theorem infix_ext_left (A : Str) {x B : Str} (h : x <:+: B) : x <:+: A ++ B := by
  obtain ⟨s, t, hst⟩ := h
  exact ⟨A ++ s, t, by rw [← hst]; simp⟩

theorem infix_ext_right {x A : Str} (B : Str) (h : x <:+: A) : x <:+: A ++ B := by
  obtain ⟨s, t, hst⟩ := h
  exact ⟨s, t ++ B, by rw [← hst]; simp⟩

/-- Character-level side condition on a snippet: every opening brace in it
sits at index at least 2, is not preceded by the letter `s`, and the
character two places before it is neither the letter `s` nor whitespace.
A `LIT\s*\x7b` anchor match for a literal ending in `s` therefore cannot end
at any brace of the snippet. -/
def SnippetSafe (sn : Str) : Prop :=
  ∀ k0, k0 < sn.length → sn[k0]? = some '\x7b' →
    2 ≤ k0 ∧ sn[k0 - 1]? ≠ some 's' ∧ sn[k0 - 2]? ≠ some 's' ∧
      (sn[k0 - 2]?).all (fun d => !pySpace d) = true

instance (sn : Str) : Decidable (SnippetSafe sn) := by
  unfold SnippetSafe; infer_instance

/-- An occurrence of a safe snippet survives the splice performed right
after a `dependencies\s*\x7b` anchor match: the insertion point cannot fall
strictly inside the occurrence. -/
theorem snippet_survives {sn txt ins : Str} {i n : Nat}
    (hsafe : SnippetSafe sn)
    (hf : scanFind (matchAtLitWsBrace (S "dependencies")) txt = some (i, n))
    (hsn : sn <:+: txt) :
    sn <:+: txt.take (i + n) ++ (ins ++ txt.drop (i + n)) := by
  obtain ⟨hm, -⟩ := scanFind_sound hf
  obtain ⟨ws, rest, hdec, hws, hn⟩ := matchAt_some hm
  obtain ⟨u, w, huw⟩ := hsn
  have hlit : (S "dependencies").length = 12 := by decide
  have hn' : n = 13 + ws.length := by rw [hn, hlit]; omega
  by_cases hc1 : i + n ≤ u.length
  · refine infix_ext_left _ (infix_ext_left ins ?_)
    have hdrop : txt.drop (i + n) = u.drop (i + n) ++ (sn ++ w) := by
      rw [← huw, List.append_assoc, List.drop_append_eq_append_drop,
        show i + n - u.length = 0 from by omega, List.drop_zero]
    rw [hdrop]
    exact infix_ext_left _ (infix_ext_right w (List.infix_refl sn))
  · by_cases hc2 : u.length + sn.length ≤ i + n
    · refine infix_ext_right _ ?_
      have htake : txt.take (i + n) =
          u ++ (sn ++ w.take (i + n - u.length - sn.length)) := by
        rw [← huw, List.append_assoc, List.take_append_eq_append_take,
          List.take_of_length_le (show u.length ≤ i + n from by omega),
          List.take_append_eq_append_take,
          List.take_of_length_le (show sn.length ≤ i + n - u.length from by omega)]
      rw [htake]
      exact infix_ext_left u (infix_ext_right _ (List.infix_refl sn))
    · exfalso
      push_neg at hc1 hc2
      have hocc : ∀ m, m < sn.length → txt[u.length + m]? = sn[m]? := by
        intro m hm2
        rw [← huw, List.append_assoc,
          List.getElem?_append_right (show u.length ≤ u.length + m from by omega),
          show u.length + m - u.length = m from by omega,
          List.getElem?_append_left hm2]
      have hmat : ∀ m, txt[i + m]? = (S "dependencies" ++ (ws ++ '\x7b' :: rest))[m]? := by
        intro m
        rw [← hdec, List.getElem?_drop]
      set k0 := i + n - 1 - u.length with hk0
      have hk0lt : k0 < sn.length := by omega
      have hbr : sn[k0]? = some '\x7b' := by
        have h1 := hmat (n - 1)
        rw [show i + (n - 1) = i + n - 1 from by omega] at h1
        have h2 : (S "dependencies" ++ (ws ++ '\x7b' :: rest))[n - 1]? = some '\x7b' := by
          rw [← List.append_assoc,
            List.getElem?_append_right
              (show (S "dependencies" ++ ws).length ≤ n - 1 from by
                rw [List.length_append, hlit]; omega),
            show n - 1 - (S "dependencies" ++ ws).length = 0 from by
              rw [List.length_append, hlit]; omega]
          simp
        rw [h2] at h1
        have h3 := hocc k0 hk0lt
        rw [show u.length + k0 = i + n - 1 from by omega] at h3
        rw [← h3, h1]
      obtain ⟨hk2, hs1, hs2, hsp⟩ := hsafe k0 hk0lt hbr
      rcases hwq : ws.length with _ | wl
      · have h1 := hmat 11
        rw [show i + 11 = i + n - 2 from by omega] at h1
        have h2 : (S "dependencies" ++ (ws ++ '\x7b' :: rest))[11]? = some 's' := by
          rw [List.getElem?_append_left (show 11 < (S "dependencies").length from by
            rw [hlit]; omega)]
          decide
        rw [h2] at h1
        have h3 := hocc (k0 - 1) (by omega)
        rw [show u.length + (k0 - 1) = i + n - 2 from by omega] at h3
        exact hs1 (by rw [← h3, h1])
      · rcases hwq2 : wl with _ | wl2
        · have h1 := hmat 11
          rw [show i + 11 = i + n - 3 from by omega] at h1
          have h2 : (S "dependencies" ++ (ws ++ '\x7b' :: rest))[11]? = some 's' := by
            rw [List.getElem?_append_left (show 11 < (S "dependencies").length from by
              rw [hlit]; omega)]
            decide
          rw [h2] at h1
          have h3 := hocc (k0 - 2) (by omega)
          rw [show u.length + (k0 - 2) = i + n - 3 from by omega] at h3
          exact hs2 (by rw [← h3, h1])
        · have h1 := hmat (12 + (ws.length - 2))
          rw [show i + (12 + (ws.length - 2)) = i + n - 3 from by omega] at h1
          obtain ⟨c, hc⟩ : ∃ c, ws[ws.length - 2]? = some c := by
            have hlt : ws.length - 2 < ws.length := by omega
            exact ⟨ws.get ⟨ws.length - 2, hlt⟩, List.getElem?_eq_getElem hlt⟩
          have h2 : (S "dependencies" ++ (ws ++ '\x7b' :: rest))[12 + (ws.length - 2)]? =
              some c := by
            rw [List.getElem?_append_right
                (show (S "dependencies").length ≤ 12 + (ws.length - 2) from by
                  rw [hlit]; omega),
              show 12 + (ws.length - 2) - (S "dependencies").length = ws.length - 2 from by
                rw [hlit]; omega,
              List.getElem?_append_left (show ws.length - 2 < ws.length from by omega),
              hc]
          rw [h2] at h1
          have h3 := hocc (k0 - 2) (by omega)
          rw [show u.length + (k0 - 2) = i + n - 3 from by omega] at h3
          have h4 : sn[k0 - 2]? = some c := by rw [← h3, h1]
          rw [h4, Option.all_some, hws c (List.getElem?_mem hc)] at hsp
          exact absurd hsp (by decide)

theorem pyIn_preserved_dep_insert {sn txt ins : Str} {i n : Nat}
    (hsafe : SnippetSafe sn)
    (hf : scanFind (matchAtLitWsBrace (S "dependencies")) txt = some (i, n))
    (hsn : pyIn sn txt = true) :
    pyIn sn (txt.take (i + n) ++ (ins ++ txt.drop (i + n))) = true :=
  pyIn_of_infix (snippet_survives hsafe hf (pyIn_iff.mp hsn))

theorem maven_snippet_safe (b : Bool) :
    SnippetSafe (if b then MAVEN_REPO_SNIPPET_KTS else MAVEN_REPO_SNIPPET) := by
  cases b <;> decide

/-- One pass of the dependency step from a resolvable state: the fields read
by the repository step are preserved, a Maven snippet already present in the
selected build file stays present, the step applied again leaves the state
fixed, and when the first pass reported success (and actually changed the
tree) the second pass reports the already-present informational message. -/
theorem dep_phase (g : FS) (b : Bool) (ht : gradleTarget g = some b)
    (hns : isSuccMsg (add_dependency g).2 = true → (add_dependency g).1 ≠ g) :
    gradleTarget (add_dependency g).1 = some b ∧
    settingsTarget (add_dependency g).1 = settingsTarget g ∧
    (∀ k, readSettings (add_dependency g).1 k = readSettings g k) ∧
    (pyIn (if b then MAVEN_REPO_SNIPPET_KTS else MAVEN_REPO_SNIPPET)
        (readGradle g b) = true →
      pyIn (if b then MAVEN_REPO_SNIPPET_KTS else MAVEN_REPO_SNIPPET)
        (readGradle (add_dependency g).1 b) = true) ∧
    (add_dependency (add_dependency g).1).1 = (add_dependency g).1 ∧
    (isSuccMsg (add_dependency g).2 = true →
      isInfoMsg (add_dependency (add_dependency g).1).2 = true) := by
  rcases hpy : pyIn (if b then DEP_LINE_KTS else DEP_LINE_GROOVY) (readGradle g b) with _ | _
  · rcases hsc : scanFind (matchAtLitWsBrace (S "dependencies")) (readGradle g b)
      with _ | ⟨i, n⟩
    · have hd : add_dependency g =
          (g, S "✔️ Added UXCam dependency in " ++ gradlePathStr b) := by
        simp [add_dependency, ht, hpy, hsc, reSubOnce, writeGradle_read g b ht]
      exact absurd (show (add_dependency g).1 = g by rw [hd])
        (hns (show isSuccMsg (add_dependency g).2 = true by rw [hd]; rfl))
    · have hd := add_dependency_inserts g b (readGradle g b) i n ht rfl hpy hsc
      have h1 : (add_dependency g).1 =
          writeGradle g b
            ((readGradle g b).take (i + n) ++
              ((S "\n    " ++ (if b then DEP_LINE_KTS else DEP_LINE_GROOVY)) ++
                (readGradle g b).drop (i + n))) := by
        rw [hd]
      have hg1 : gradleTarget (add_dependency g).1 = some b := by
        rw [h1]; exact gradleTarget_writeGradle g b _ ht
      have hline : pyIn (if b then DEP_LINE_KTS else DEP_LINE_GROOVY)
          (readGradle (add_dependency g).1 b) = true := by
        rw [h1, readGradle_write]
        exact pyIn_insert _ _ _ _
      have h2nd := add_dependency_info (add_dependency g).1 b hg1 hline
      refine ⟨hg1, ?_, ?_, ?_, ?_, ?_⟩
      · rw [h1, settingsTarget_writeGradle]
      · intro k; rw [h1, readSettings_writeGradle]
      · intro hin
        rw [h1, readGradle_write]
        exact pyIn_preserved_dep_insert (maven_snippet_safe b) hsc hin
      · rw [h2nd]
      · intro hs; rw [h2nd]; rfl
  · have hd := add_dependency_info g b ht hpy
    have h1 : (add_dependency g).1 = g := by rw [hd]
    refine ⟨?_, ?_, ?_, ?_, ?_, ?_⟩
    · rw [h1]; exact ht
    · rw [h1]
    · intro k; rw [h1]
    · intro hin; rw [h1]; exact hin
    · rw [h1]; exact h1
    · intro hs
      rw [hd] at hs
      exact absurd (show isSuccMsg (S "ℹ️ Dependency already present") = true from hs)
        (by decide)

/-- The fallback repository step followed by the dependency step, then the
same two steps again: the second pass leaves the state fixed, each of the two
steps that reported success on the first pass reports an informational
message on the second, and the settings fields are untouched throughout
(assuming no first-pass step reports success without changing the tree). -/
theorem fallback_dep_second (f0 : FS)
    (hns1 : isSuccMsg (add_repo_fallback f0).2 = true → (add_repo_fallback f0).1 ≠ f0)
    (hns2 : isSuccMsg (add_dependency (add_repo_fallback f0).1).2 = true →
      (add_dependency (add_repo_fallback f0).1).1 ≠ (add_repo_fallback f0).1) :
    settingsTarget (add_dependency (add_repo_fallback f0).1).1 = settingsTarget f0 ∧
    (∀ k, readSettings (add_dependency (add_repo_fallback f0).1).1 k =
      readSettings f0 k) ∧
    (add_repo_fallback (add_dependency (add_repo_fallback f0).1).1).1 =
      (add_dependency (add_repo_fallback f0).1).1 ∧
    (isSuccMsg (add_repo_fallback f0).2 = true →
      isInfoMsg (add_repo_fallback (add_dependency (add_repo_fallback f0).1).1).2 = true) ∧
    (add_dependency
        (add_repo_fallback (add_dependency (add_repo_fallback f0).1).1).1).1 =
      (add_dependency (add_repo_fallback f0).1).1 ∧
    (isSuccMsg (add_dependency (add_repo_fallback f0).1).2 = true →
      isInfoMsg (add_dependency
        (add_repo_fallback (add_dependency (add_repo_fallback f0).1).1).1).2 = true) := by
  rcases hgt : gradleTarget f0 with _ | b
  · have hr := add_repo_fallback_warn f0 hgt
    have hd := add_dependency_warn f0 hgt
    have hr1 : (add_repo_fallback f0).1 = f0 := by rw [hr]
    have hd1 : (add_dependency f0).1 = f0 := by rw [hd]
    refine ⟨?_, ?_, ?_, ?_, ?_, ?_⟩
    · rw [hr1, hd1]
    · intro k; rw [hr1, hd1]
    · rw [hr1, hd1, hr1]
    · intro hs
      rw [hr] at hs
      exact absurd
        (show isSuccMsg (S "⚠️ Neither settings.gradle nor app/build.gradle found") = true
          from hs) (by decide)
    · rw [hr1, hd1, hr1, hd1]
    · intro hs
      rw [hr1, hd] at hs
      exact absurd (show isSuccMsg (S "⚠️ app/build.gradle file not found") = true from hs)
        (by decide)
  · rcases hpy : pyIn (if b then MAVEN_REPO_SNIPPET_KTS else MAVEN_REPO_SNIPPET)
      (readGradle f0 b) with _ | _
    · rcases hrf : scanFind (matchAtLitWsBrace (S "repositories")) (readGradle f0 b)
        with _ | ⟨j, m⟩
      · have hr : add_repo_fallback f0 =
            (f0, S "✔️ Added UXCam Maven repo in " ++
              (gradlePathStr b ++ S " (fallback)")) := by
          simp [add_repo_fallback, hgt, hpy, hrf, reSubOnce, writeGradle_read f0 b hgt]
        exact absurd (show (add_repo_fallback f0).1 = f0 by rw [hr])
          (hns1 (show isSuccMsg (add_repo_fallback f0).2 = true by rw [hr]; rfl))
      · have hr := add_repo_fallback_inserts f0 b (readGradle f0 b) j m hgt rfl hpy hrf
        have hr1 : (add_repo_fallback f0).1 =
            writeGradle f0 b
              ((readGradle f0 b).take (j + m) ++
                ((S "\n        " ++
                    (if b then MAVEN_REPO_SNIPPET_KTS else MAVEN_REPO_SNIPPET)) ++
                  (readGradle f0 b).drop (j + m))) := by
          rw [hr]
        have hg1 : gradleTarget (add_repo_fallback f0).1 = some b := by
          rw [hr1]; exact gradleTarget_writeGradle f0 b _ hgt
        have hg2 : settingsTarget (add_repo_fallback f0).1 = settingsTarget f0 := by
          rw [hr1, settingsTarget_writeGradle]
        have hg3 : ∀ k, readSettings (add_repo_fallback f0).1 k = readSettings f0 k := by
          intro k; rw [hr1, readSettings_writeGradle]
        have hg4 : pyIn (if b then MAVEN_REPO_SNIPPET_KTS else MAVEN_REPO_SNIPPET)
            (readGradle (add_repo_fallback f0).1 b) = true := by
          rw [hr1, readGradle_write]
          exact pyIn_insert _ _ _ _
        obtain ⟨P1, P2, P3, P4, P5, P6⟩ := dep_phase (add_repo_fallback f0).1 b hg1 hns2
        have h2nd := add_repo_fallback_info _ b P1 (P4 hg4)
        refine ⟨P2.trans hg2, fun k => (P3 k).trans (hg3 k), ?_, ?_, ?_, ?_⟩
        · rw [h2nd]
        · intro hs; rw [h2nd]; rfl
        · rw [h2nd]; exact P5
        · intro hs; rw [h2nd]; exact P6 hs
    · have hr := add_repo_fallback_info f0 b hgt hpy
      have hr1 : (add_repo_fallback f0).1 = f0 := by rw [hr]
      obtain ⟨P1, P2, P3, P4, P5, P6⟩ :=
        dep_phase f0 b hgt (by rw [hr1] at hns2; exact hns2)
      have h2nd := add_repo_fallback_info _ b P1 (P4 hpy)
      refine ⟨?_, ?_, ?_, ?_, ?_, ?_⟩
      · rw [hr1]; exact P2
      · intro k; rw [hr1]; exact P3 k
      · rw [hr1, h2nd]
      · intro hs
        rw [hr] at hs
        exact absurd
          (show isSuccMsg (S "ℹ️ Maven repo already present in app/build.gradle") = true
            from hs) (by decide)
      · rw [hr1, h2nd]; exact P5
      · intro hs; rw [hr1] at hs; rw [hr1, h2nd]; exact P6 hs

/-- The full repository step followed by the dependency step, then both
again: the second pass leaves the state fixed and turns every first-pass
success of these two steps into an informational message (assuming no
first-pass step reports success without changing the tree). -/
theorem repo_dep_second (fs : FS)
    (hns1 : isSuccMsg (add_repo fs).2 = true → (add_repo fs).1 ≠ fs)
    (hns2 : isSuccMsg (add_dependency (add_repo fs).1).2 = true →
      (add_dependency (add_repo fs).1).1 ≠ (add_repo fs).1) :
    (add_repo (add_dependency (add_repo fs).1).1).1 =
      (add_dependency (add_repo fs).1).1 ∧
    (isSuccMsg (add_repo fs).2 = true →
      isInfoMsg (add_repo (add_dependency (add_repo fs).1).1).2 = true) ∧
    (add_dependency (add_repo (add_dependency (add_repo fs).1).1).1).1 =
      (add_dependency (add_repo fs).1).1 ∧
    (isSuccMsg (add_dependency (add_repo fs).1).2 = true →
      isInfoMsg
        (add_dependency (add_repo (add_dependency (add_repo fs).1).1).1).2 = true) := by
  rcases hst : settingsTarget fs with _ | k
  · -- no settings file: the repository step is the fallback, on both passes
    have he := add_repo_no_settings fs hst
    obtain ⟨Q1, Q2, Q3, Q4, Q5, Q6⟩ := fallback_dep_second fs
      (by rw [he] at hns1; exact hns1) (by rw [he] at hns2; exact hns2)
    have hst2 : settingsTarget (add_dependency (add_repo fs).1).1 = none := by
      rw [he]; exact Q1.trans hst
    have he2 := add_repo_no_settings _ hst2
    refine ⟨?_, ?_, ?_, ?_⟩
    · rw [he2, he]; exact Q3
    · intro hs; rw [he] at hs; rw [he2, he]; exact Q4 hs
    · rw [he2, he]; exact Q5
    · intro hs; rw [he] at hs; rw [he2, he]; exact Q6 hs
  · rcases hpys : pyIn (if k then MAVEN_REPO_SNIPPET_KTS else MAVEN_REPO_SNIPPET)
      (readSettings fs k) with _ | _
    · rcases hdrm : reFind drmRE (readSettings fs k) with _ | ⟨di, dn⟩
      · -- no resolution-management block: fallback on both passes
        have he := add_repo_drm_none fs k hst hpys hdrm
        obtain ⟨Q1, Q2, Q3, Q4, Q5, Q6⟩ := fallback_dep_second fs
          (by rw [he] at hns1; exact hns1) (by rw [he] at hns2; exact hns2)
        have hst2 : settingsTarget (add_dependency (add_repo fs).1).1 = some k := by
          rw [he]; exact Q1.trans hst
        have hrs2 : readSettings (add_dependency (add_repo fs).1).1 k =
            readSettings fs k := by
          rw [he]; exact Q2 k
        have he2 : add_repo (add_dependency (add_repo fs).1).1 =
            add_repo_fallback (add_dependency (add_repo fs).1).1 :=
          add_repo_drm_none _ k hst2 (by rw [hrs2]; exact hpys)
            (by rw [hrs2]; exact hdrm)
        refine ⟨?_, ?_, ?_, ?_⟩
        · rw [he2, he]; exact Q3
        · intro hs; rw [he] at hs; rw [he2, he]; exact Q4 hs
        · rw [he2, he]; exact Q5
        · intro hs; rw [he] at hs; rw [he2, he]; exact Q6 hs
      · -- snippet inserted into the settings file: present there ever after
        have he := add_repo_drm_inserts fs k di dn hst hpys hdrm
        have he1 : (add_repo fs).1 =
            writeSettings fs k
              ((readSettings fs k).take (di + dn) ++
                ((S "\n        " ++
                    (if k then MAVEN_REPO_SNIPPET_KTS else MAVEN_REPO_SNIPPET)) ++
                  (readSettings fs k).drop (di + dn))) := by
          rw [he]
        have hgt' : gradleTarget (add_repo fs).1 = gradleTarget fs := by
          rw [he1, gradleTarget_writeSettings]
        have hset : settingsTarget (add_repo fs).1 = some k := by
          rw [he1]; exact settingsTarget_writeSettings fs k _ hst
        have hread : readSettings (add_repo fs).1 k =
            (readSettings fs k).take (di + dn) ++
              ((S "\n        " ++
                  (if k then MAVEN_REPO_SNIPPET_KTS else MAVEN_REPO_SNIPPET)) ++
                (readSettings fs k).drop (di + dn)) := by
          rw [he1, readSettings_write]
        have hsnipS : pyIn (if k then MAVEN_REPO_SNIPPET_KTS else MAVEN_REPO_SNIPPET)
            ((readSettings fs k).take (di + dn) ++
              ((S "\n        " ++
                  (if k then MAVEN_REPO_SNIPPET_KTS else MAVEN_REPO_SNIPPET)) ++
                (readSettings fs k).drop (di + dn))) = true :=
          pyIn_insert _ _ _ _
        rcases hgt : gradleTarget fs with _ | b
        · -- no build file: the dependency step warns on both passes
          have hdw := add_dependency_warn (add_repo fs).1 (by rw [hgt']; exact hgt)
          have hd1 : (add_dependency (add_repo fs).1).1 = (add_repo fs).1 := by rw [hdw]
          have hrepo2 := add_repo_settings_info (add_dependency (add_repo fs).1).1 k
            (by rw [hd1]; exact hset) (by rw [hd1, hread]; exact hsnipS)
          have hr2 : (add_repo (add_dependency (add_repo fs).1).1).1 =
              (add_dependency (add_repo fs).1).1 := by
            rw [hrepo2]
          have hdw2 := add_dependency_warn (add_repo (add_dependency (add_repo fs).1).1).1
            (by rw [hr2, hd1, hgt']; exact hgt)
          refine ⟨hr2, ?_, ?_, ?_⟩
          · intro hs; rw [hrepo2]; rfl
          · rw [hdw2]; exact hr2
          · intro hs
            rw [hdw] at hs
            exact absurd
              (show isSuccMsg (S "⚠️ app/build.gradle file not found") = true from hs)
              (by decide)
        · -- dependency phase on the updated tree
          obtain ⟨P1, P2, P3, P4, P5, P6⟩ :=
            dep_phase (add_repo fs).1 b (by rw [hgt']; exact hgt) hns2
          have hs1set : settingsTarget (add_dependency (add_repo fs).1).1 = some k := by
            rw [P2]; exact hset
          have hrepo2 := add_repo_settings_info (add_dependency (add_repo fs).1).1 k hs1set
            (by rw [P3 k, hread]; exact hsnipS)
          refine ⟨?_, ?_, ?_, ?_⟩
          · rw [hrepo2]
          · intro hs; rw [hrepo2]; rfl
          · rw [hrepo2]; exact P5
          · intro hs; rw [hrepo2]; exact P6 hs
    · -- snippet already present in the settings file: info on both passes
      have he := add_repo_settings_info fs k hst hpys
      have he1 : (add_repo fs).1 = fs := by rw [he]
      rcases hgt : gradleTarget fs with _ | b
      · have hdw := add_dependency_warn fs hgt
        have hd1 : (add_dependency (add_repo fs).1).1 = fs := by rw [he1, hdw]
        have hrepo2 := add_repo_settings_info (add_dependency (add_repo fs).1).1 k
          (by rw [hd1]; exact hst) (by rw [hd1]; exact hpys)
        have hr2 : (add_repo (add_dependency (add_repo fs).1).1).1 =
            (add_dependency (add_repo fs).1).1 := by
          rw [hrepo2]
        refine ⟨hr2, ?_, ?_, ?_⟩
        · intro hs
          rw [he] at hs
          exact absurd
            (show isSuccMsg (S "ℹ️ Maven repo already present in settings.gradle") = true
              from hs) (by decide)
        · rw [hr2, hd1, hdw]
        · intro hs
          rw [he1, hdw] at hs
          exact absurd
            (show isSuccMsg (S "⚠️ app/build.gradle file not found") = true from hs)
            (by decide)
      · obtain ⟨P1, P2, P3, P4, P5, P6⟩ :=
          dep_phase fs b hgt (by rw [he1] at hns2; exact hns2)
        have hs1set : settingsTarget (add_dependency fs).1 = some k := by
          rw [P2]; exact hst
        have hrepo2 := add_repo_settings_info (add_dependency fs).1 k hs1set
          (by rw [P3 k]; exact hpys)
        refine ⟨?_, ?_, ?_, ?_⟩
        · rw [he1, hrepo2]
        · intro hs
          rw [he] at hs
          exact absurd
            (show isSuccMsg (S "ℹ️ Maven repo already present in settings.gradle") = true
              from hs) (by decide)
        · rw [he1, hrepo2]; exact P5
        · intro hs; rw [he1] at hs; rw [he1, hrepo2]; exact P6 hs

/-- C5 counterexample: on the gradle file with no block-opener anchors, the
first run's repository and dependency steps report success (C1's spurious
successes) without changing the tree, so the second run reports the very
same success messages, not informational ones, for steps that succeeded on
the first run. -/
theorem c5_counterexample :
    (runAll fsNoAnchor []).1 = fsNoAnchor ∧
    isSuccMsg ((runAll fsNoAnchor []).2.headD []) = true ∧
    isSuccMsg ((runAll (runAll fsNoAnchor []).1 []).2.headD []) = true ∧
    isInfoMsg ((runAll (runAll fsNoAnchor []).1 []).2.headD []) = false := by
  decide

/-- C5 (amended): with an empty key reference — so the key step returns the
same no-key guidance on both runs and never succeeds — and provided neither
the repository step nor the dependency step of the first run reports success
while leaving the tree unchanged (C1's spurious anchor-missing successes),
running the full operation twice is idempotent: the second run leaves every
file exactly as the first run left it, and each of the two patch steps that
reported success on the first run reports an informational already-present
message on the second. -/
theorem c5_second_run_idempotent (fs : FS)
    (hns1 : isSuccMsg (add_repo fs).2 = true → (add_repo fs).1 ≠ fs)
    (hns2 : isSuccMsg (add_dependency (add_repo fs).1).2 = true →
      (add_dependency (add_repo fs).1).1 ≠ (add_repo fs).1) :
    (runAll (runAll fs []).1 []).1 = (runAll fs []).1 ∧
    (isSuccMsg (add_repo fs).2 = true →
      isInfoMsg (add_repo (runAll fs []).1).2 = true) ∧
    (isSuccMsg (add_dependency (add_repo fs).1).2 = true →
      isInfoMsg (add_dependency (add_repo (runAll fs []).1).1).2 = true) ∧
    (runAll fs []).2.getLastD [] = handle_no_key_provided ∧
    (runAll (runAll fs []).1 []).2.getLastD [] = handle_no_key_provided := by
  obtain ⟨R1, R2, R3, R4⟩ := repo_dep_second fs hns1 hns2
  exact ⟨R3, fun hs => R2 hs, fun hs => R4 hs, rfl, rfl⟩

/-- C5 witness: the Groovy-only project with both anchors, where both patch
steps genuinely insert on the first run. -/
theorem c5_witness :
    (isSuccMsg (add_repo fsGroovyOnly).2 = true →
      (add_repo fsGroovyOnly).1 ≠ fsGroovyOnly) ∧
    (isSuccMsg (add_dependency (add_repo fsGroovyOnly).1).2 = true →
      (add_dependency (add_repo fsGroovyOnly).1).1 ≠ (add_repo fsGroovyOnly).1) ∧
    ((runAll (runAll fsGroovyOnly []).1 []).1 = (runAll fsGroovyOnly []).1 ∧
    (isSuccMsg (add_repo fsGroovyOnly).2 = true →
      isInfoMsg (add_repo (runAll fsGroovyOnly []).1).2 = true) ∧
    (isSuccMsg (add_dependency (add_repo fsGroovyOnly).1).2 = true →
      isInfoMsg (add_dependency (add_repo (runAll fsGroovyOnly []).1).1).2 = true) ∧
    (runAll fsGroovyOnly []).2.getLastD [] = handle_no_key_provided ∧
    (runAll (runAll fsGroovyOnly []).1 []).2.getLastD [] = handle_no_key_provided) :=
  ⟨by decide, by decide, c5_second_run_idempotent fsGroovyOnly (by decide) (by decide)⟩

end UX
